import Mathlib

/-! golang-restclient: cache freshness, request building and URL normalisation.

A shallow embedding of `rest/net.go` and `rest/mockup.go`.

Conventions of the embedding.

* Go strings are Lean `String`s, processed as `List Char`; one Go byte is one
  `Char` for ASCII text, which is all that the code inspects. Where the code
  creates text from bytes (`url.QueryUnescape`), the bytes are decoded as
  UTF-8.
* `time.Time` is an `Int`: nanoseconds since the Unix epoch. `time.Duration`
  and `int` are 64-bit signed integers (a 64-bit platform), written as `Int`
  with an explicit wrap.
* A Go pointer that may be `nil` is an `Option`.
* `http.Header`, `strconv.Atoi`, the `maxAge` regular expression, `url.Parse`
  and `URL.Query` (with `&` as the only separator) are written out.
* Standard-library calls whose result the code only passes on or branches on
  (`time.Now`, `time.Parse`, `Time.Format`, `json.Marshal`, `xml.Marshal`,
  `URL.String`, `http.NewRequest`, base64, `client.Do` with `ioutil.ReadAll`)
  and the lookup of the package-level cache (`resourceCache`, declared
  outside `net.go`) are fields of `Env`.
* Side effects of `doRequest` are recorded as a list of `Event`s.
* `getClient` passes the shared state explicitly: `World` holds the package
  variables and the `http.Transport` and `CustomPool` values by address,
  `BuilderState` holds the builder's `clientMtxOnce` and `Client`.
* `mockupHandler` returns what it passes to its `http.ResponseWriter`, or
  `none` when `WriteHeader` panics on the status.
-/

namespace Rest

/-! ## Machine integers and time -/

/-- Instants: nanoseconds since the Unix epoch. -/
abbrev Time := Int

/-- Two's-complement wrap of an integer into the `int64` range. -/
def wrapInt64 (x : Int) : Int := (x + 2 ^ 63) % 2 ^ 64 - 2 ^ 63

/-- Largest `int64`. -/
def maxInt64 : Int := 2 ^ 63 - 1

/-- Go's `time.Second` as a `time.Duration` (nanoseconds). -/
def Second : Int := 1000000000

/-- Go's `time.Duration(n) * time.Second`: an `int64` product, wrapping. -/
def durationSeconds (n : Int) : Int := wrapInt64 (n * Second)

/-- Go's `Time.Add` on instants far from the ends of the representable range. -/
def Time.Add (t : Time) (d : Int) : Time := t + d

/-! ## `strconv.Atoi` (64-bit `int`) -/

/-- Value of a list of decimal digits, most significant first. -/
def digitsValue (cs : List Char) : Nat :=
  cs.foldl (fun acc c => acc * 10 + (c.toNat - '0'.toNat)) 0

/-- Go's `strconv.Atoi`: optional sign, then one or more ASCII digits; an
error (`none`) on any other syntax or when the value leaves the `int64` range. -/
def atoi (s : String) : Option Int :=
  let body (cs : List Char) (neg : Bool) : Option Int :=
    if cs.isEmpty || !cs.all Char.isDigit then none
    else
      let v : Int := digitsValue cs
      if neg then (if v ≤ 2 ^ 63 then some (-v) else none)
      else (if v ≤ maxInt64 then some v else none)
  match s.toList with
  | '+' :: cs => body cs false
  | '-' :: cs => body cs true
  | cs => body cs false

/-! ## `net/http.Header` -/

/-- Go's `http.Header`, a `map[string][]string`, as an association list with
at most one entry per key in use (the first entry of a key is the live one). -/
abbrev Header := List (String × List String)

/-- Bytes allowed in a header field name (`textproto.validHeaderFieldByte`):
the `token` characters of RFC 7230. -/
def validHeaderFieldByte (c : Char) : Bool :=
  c.isAlphanum || c ∈ ['!', '#', '$', '%', '&', Char.ofNat 39, '*', '+', '-', '.',
    '^', '_', Char.ofNat 96, '|', '~']

/-- The canonicalising loop of `textproto.canonicalMIMEHeaderKey`: upper case
at the start and after each dash, lower case elsewhere. -/
def canonLoop : Bool → List Char → List Char
  | _, [] => []
  | upper, c :: cs =>
    let c1 := if upper && c.isLower then c.toUpper
              else if !upper && c.isUpper then c.toLower else c
    c1 :: canonLoop (c1 == '-') cs

/-- Go's `textproto.CanonicalMIMEHeaderKey`: a key holding a byte that is not
a token character is returned unchanged. -/
def canonicalMIMEHeaderKey (s : String) : String :=
  if s.toList.all validHeaderFieldByte then String.mk (canonLoop true s.toList) else s

/-- Map lookup `h[key]` (no canonicalisation). -/
def Header.lookup (h : Header) (key : String) : Option (List String) :=
  (h.find? (fun kv => kv.1 == key)).map Prod.snd

/-- Map store `h[key] = vs`. -/
def Header.store (h : Header) (key : String) (vs : List String) : Header :=
  (key, vs) :: h.filter (fun kv => kv.1 != key)

/-- Go's `Header.Get`: first value of the canonical key, or `""`. -/
def Header.Get (h : Header) (key : String) : String :=
  match h.lookup (canonicalMIMEHeaderKey key) with
  | some (v :: _) => v
  | _ => ""

/-- Go's `Header.Set`: the canonical key now maps to the single value. -/
def Header.Set (h : Header) (key value : String) : Header :=
  h.store (canonicalMIMEHeaderKey key) [value]

/-- Go's `Header.Add`: append the value to the canonical key's values. -/
def Header.Add (h : Header) (key value : String) : Header :=
  let k := canonicalMIMEHeaderKey key
  h.store k ((h.lookup k).getD [] ++ [value])

/-! ## Responses -/

/-- The fields of `*http.Response` that the package reads. -/
structure HTTPResponse where
  StatusCode : Nat
  Header : Header
  deriving DecidableEq, Repr

/-- The package's `Response`: the embedded `*http.Response` (field
`httpResponse`, `none` for nil), the error, the body bytes and the cache bookkeeping fields used by `net.go`. -/
structure Response where
  httpResponse : Option HTTPResponse
  Err : Option String
  byteBody : Option (List Nat)
  ttl : Option Time
  lastModified : Option Time
  etag : String
  revalidate : Bool
  cacheHit : Bool
  deriving DecidableEq, Repr

/-- Go's `new(Response)`: every field zero. -/
def Response.new : Response :=
  { httpResponse := none, Err := none, byteBody := none, ttl := none,
    lastModified := none, etag := "", revalidate := false, cacheHit := false }

/-- The promoted field `resp.Header` of the embedded `*http.Response`. The
freshness functions are only called once `result.Response` has been set (field `httpResponse`). -/
def Response.Header (r : Response) : Header :=
  match r.httpResponse with
  | some h => h.Header
  | none => []

/-! ## `matchVerbs` -/

/-- The package variable `readVerbs`. -/
def readVerbs : List String := ["GET", "HEAD", "OPTIONS"]

/-- The package variable `contentVerbs`. -/
def contentVerbs : List String := ["POST", "PUT", "PATCH"]

/-- The function `matchVerbs`: linear search of the verb in the array. -/
def matchVerbs (s : String) (sarray : List String) : Bool :=
  match sarray with
  | [] => false
  | x :: rest => if x == s then true else matchVerbs s rest

/-! ## The `maxAge` regular expression -/

/-- If `p` starts `cs`, the rest of `cs`. -/
def dropLit : List Char → List Char → Option (List Char)
  | [], cs => some cs
  | _ :: _, [] => none
  | p :: ps, c :: cs => if p == c then dropLit ps cs else none

/-- A match of `(?:max-age|s-maxage)=(\d+)` anchored at the start of `cs`: the
greedy capture of group 1. -/
def maxAgeMatchAt (cs : List Char) : Option (List Char) :=
  let digits (rest : List Char) : Option (List Char) :=
    let d := rest.takeWhile Char.isDigit
    if d.isEmpty then none else some d
  match dropLit "max-age=".toList cs with
  | some rest => digits rest
  | none =>
    match dropLit "s-maxage=".toList cs with
    | some rest => digits rest
    | none => none

/-- Leftmost match of the regular expression in `cs`: capture group 1. -/
def maxAgeFindChars : List Char → Option (List Char)
  | [] => none
  | c :: cs =>
    match maxAgeMatchAt (c :: cs) with
    | some d => some d
    | none => maxAgeFindChars cs

/-- The call `maxAge.FindStringSubmatch(s)`: `none` when there is no match
(a slice of length 0), else the text of capture group 1 (`cacheControl[1]`). -/
def maxAgeFind (s : String) : Option String :=
  (maxAgeFindChars s.toList).map String.mk

/-! ## Freshness evaluation: `setTTL`, `setLastModified`, `setETag` -/

/-- The function `setTTL`. `now` is the value of `time.Now()` and `parseTime`
is `time.Parse(httpDateFormat, ·)` (`none` on error). Returns the updated
response and the result `set`. -/
def setTTL (now : Time) (parseTime : String → Option Time) (resp : Response) :
    Response × Bool :=
  match maxAgeFind (resp.Header.Get "Cache-Control") with
  | some digits =>
    match atoi digits with
    | none => (resp, false)
    | some ttl =>
      if ttl > 0 then
        ({ resp with ttl := some (Time.Add now (durationSeconds ttl)) }, true)
      else (resp, false)
  | none =>
    match parseTime (resp.Header.Get "Expires") with
    | none => (resp, false)
    | some expires =>
      if expires - now > 0 then ({ resp with ttl := some expires }, true)
      else (resp, false)

/-- The function `setLastModified`. -/
def setLastModified (parseTime : String → Option Time) (resp : Response) :
    Response × Bool :=
  match parseTime (resp.Header.Get "Last-Modified") with
  | none => (resp, false)
  | some lastModified => ({ resp with lastModified := some lastModified }, true)

/-- The function `setETag`. -/
def setETag (resp : Response) : Response × Bool :=
  let resp1 := { resp with etag := resp.Header.Get "ETag" }
  if resp1.etag != "" then (resp1, true) else (resp1, false)

/-! ## `net/url`: `Parse`, `Query` -/

/-- The fields of `url.URL`. `Path` and `Fragment` keep the text as written
(their escaped form); `User` is the raw userinfo. -/
structure URL where
  Scheme : String
  Opaque : String
  User : Option String
  Host : String
  Path : String
  ForceQuery : Bool
  RawQuery : String
  Fragment : String
  deriving DecidableEq, Repr

/-- Go's `strings.Cut` on character lists with a one-character separator:
the text before the first separator, the text after it, and whether it occurs. -/
def cutChar (sep : Char) : List Char → List Char × List Char × Bool
  | [] => ([], [], false)
  | c :: cs =>
    if c == sep then ([], cs, true)
    else
      let r := cutChar sep cs
      (c :: r.1, r.2.1, r.2.2)

/-- Hexadecimal digit test (`url.ishex`). -/
def ishex (c : Char) : Bool :=
  c.isDigit || ('a' ≤ c && c ≤ 'f') || ('A' ≤ c && c ≤ 'F')

/-- Value of a hexadecimal digit (`url.unhex`). -/
def unhex (c : Char) : Nat :=
  if c.isDigit then c.toNat - '0'.toNat
  else if 'a' ≤ c && c ≤ 'f' then c.toNat - 'a'.toNat + 10
  else if 'A' ≤ c && c ≤ 'F' then c.toNat - 'A'.toNat + 10
  else 0

/-- Characters that `url.shouldEscape` lets through unescaped in a host. -/
def hostCharOk (c : Char) : Bool :=
  c.isAlphanum || c ∈ ['!', '$', '&', Char.ofNat 39, '(', ')', '*', '+', ',', ';', '=',
    ':', '[', ']', '<', '>', '"', '-', '_', '.', '~']

/-- The modes of `url.unescape` that `Parse` uses: a host, the zone of an
IPv6 literal, and the rest (path, fragment, userinfo). -/
inductive EncMode
  | host
  | zone
  | other
  deriving DecidableEq, Repr

/-- The validity scan of `url.unescape`: every `%` starts a `%XX` escape. In
a host an escape of an ASCII byte other than `%25` is an error; in a zone an
escape other than `%25` must stand for a space or a byte a host may hold; in
both, an ASCII character that needs escaping is an error. -/
def unescapeOk (mode : EncMode) : List Char → Bool
  | [] => true
  | '%' :: a :: b :: cs =>
    ishex a && ishex b &&
      (mode != .host || !(unhex a < 8) || (a == '2' && b == '5')) &&
      (mode != .zone || (a == '2' && b == '5') || unhex a * 16 + unhex b == 32 ||
        hostCharOk (Char.ofNat (unhex a * 16 + unhex b))) &&
      unescapeOk mode cs
  | '%' :: _ => false
  | c :: cs =>
    (mode == .other || !(c.toNat < 128) || hostCharOk c) && unescapeOk mode cs

/-- The text before the first occurrence of `pat` and the text from that
occurrence on, if `pat` occurs. -/
def splitAtSub (pat : List Char) : List Char → Option (List Char × List Char)
  | [] => if pat.isEmpty then some ([], []) else none
  | c :: cs =>
    match dropLit pat (c :: cs) with
    | some _ => some ([], c :: cs)
    | none => (splitAtSub pat cs).map (fun r => (c :: r.1, r.2))

/-- Go's `url.getScheme`: `none` is the error "missing protocol scheme",
else the scheme and the rest. -/
def getScheme (raw : List Char) : Option (List Char × List Char) :=
  let rec go (i : Nat) (acc : List Char) : List Char → Option (List Char × List Char)
    | [] => some ([], raw)
    | c :: cs =>
      if c.isAlpha then go (i + 1) (acc ++ [c]) cs
      else if c.isDigit || c == '+' || c == '-' || c == '.' then
        (if i == 0 then some ([], raw) else go (i + 1) (acc ++ [c]) cs)
      else if c == ':' then
        (if i == 0 then none else some (acc, cs))
      else some ([], raw)
  go 0 [] raw

/-- Go's `url.validOptionalPort`: empty, or a colon followed by digits. -/
def validOptionalPort : List Char → Bool
  | [] => true
  | ':' :: cs => cs.all Char.isDigit
  | _ => false

/-- The text from the last occurrence of `sep` on (that occurrence included),
if there is one. -/
def fromLast (sep : Char) (cs : List Char) : Option (List Char) :=
  let r := cutChar sep cs.reverse
  if r.2.2 then some (sep :: r.1.reverse) else none

/-- Go's `url.parseHost`, as a validity check: the port after the last colon
(after the closing bracket for an IP literal) is numeric and the host
unescapes; in an IP literal the text from the first `%25` up to the closing
bracket is a zone. -/
def parseHostOk (host : List Char) : Bool :=
  match host with
  | '[' :: _ =>
    match fromLast ']' host with
    | none => false
    | some tail =>
      let inner := host.take (host.length - tail.length)
      validOptionalPort (tail.drop 1) &&
        (match splitAtSub ['%', '2', '5'] inner with
         | some (host1, host2) =>
           unescapeOk .host host1 && unescapeOk .zone host2 && unescapeOk .host tail
         | none => unescapeOk .host host)
  | _ =>
    (match fromLast ':' host with
     | some colonPort => validOptionalPort colonPort
     | none => true) && unescapeOk .host host

/-- Go's `url.validUserinfo`. -/
def validUserinfo (cs : List Char) : Bool :=
  cs.all (fun c => c.isAlphanum || c ∈ ['-', '.', '_', ':', '~', '!', '$', '&',
    Char.ofNat 39, '(', ')', '*', '+', ',', ';', '=', '%', '@'])

/-- Go's `url.parseAuthority`: the userinfo (if any) and the host, or `none`
on error. -/
def parseAuthority (authority : List Char) : Option (Option String × String) :=
  let r := cutChar '@' authority.reverse
  if r.2.2 then
    let host := r.1.reverse
    let userinfo := r.2.1.reverse
    if parseHostOk host && validUserinfo userinfo && unescapeOk .other userinfo then
      some (some (String.mk userinfo), String.mk host)
    else none
  else if parseHostOk authority then some (none, String.mk authority) else none

/-- Go's `url.Parse`: `none` on error. The fragment is cut off first, then
the scheme, then the query at the first `?`; what is left is an opaque
rootless path or an authority followed by a path. -/
def urlParse (rawURL : String) : Option URL :=
  let (u, frag, _) := cutChar '#' rawURL.toList
  if u.any (fun c => c.toNat < 32 || c.toNat == 127) then none
  else if u == ['*'] then
    (if unescapeOk .other frag then
      some { Scheme := "", Opaque := "", User := none, Host := "", Path := "*",
             ForceQuery := false, RawQuery := "", Fragment := String.mk frag }
     else none)
  else
    match getScheme u with
    | none => none
    | some (scheme, rest0) =>
      let scheme := scheme.map Char.toLower
      let qcount := rest0.count '?'
      let force := rest0.getLast? == some '?' && qcount == 1
      let (rest, rawQuery) :=
        if force then (rest0.dropLast, [])
        else let r := cutChar '?' rest0; (r.1, r.2.1)
      let rooted := rest.head? == some '/'
      if !rooted && !scheme.isEmpty then
        (if unescapeOk .other frag then
          some { Scheme := String.mk scheme, Opaque := String.mk rest, User := none,
                 Host := "", Path := "", ForceQuery := force,
                 RawQuery := String.mk rawQuery, Fragment := String.mk frag }
         else none)
      else if !rooted && (cutChar '/' rest).1.contains ':' then none
      else
        let hasAuthority :=
          (!scheme.isEmpty || rest.take 3 != ['/', '/', '/']) && rest.take 2 == ['/', '/']
        let (authority, path) :=
          if hasAuthority then
            let a := rest.drop 2
            let r := cutChar '/' a
            (r.1, if r.2.2 then '/' :: r.2.1 else [])
          else ([], rest)
        match (if hasAuthority then parseAuthority authority else some (none, "")) with
        | none => none
        | some (user, host) =>
          if unescapeOk .other path && unescapeOk .other frag then
            some { Scheme := String.mk scheme, Opaque := "", User := user, Host := host,
                   Path := String.mk path, ForceQuery := force,
                   RawQuery := String.mk rawQuery, Fragment := String.mk frag }
          else none

/-- The `RawQuery` that `urlParse` assigns, as a function of the text before
the fragment. -/
def rawQueryOf (u : List Char) : List Char :=
  if u == ['*'] then []
  else
    match getScheme u with
    | none => []
    | some (_, rest0) =>
      if (rest0.getLast? == some '?' && rest0.count '?' == 1) = true then []
      else (cutChar '?' rest0).2.1

/-- The UTF-8 bytes of a character, as they stand in a Go string. -/
def utf8Bytes (c : Char) : List Nat :=
  let n := c.toNat
  if n < 128 then [n]
  else if n < 2048 then [192 + n / 64, 128 + n % 64]
  else if n < 65536 then [224 + n / 4096, 128 + n / 64 % 64, 128 + n % 64]
  else [240 + n / 262144, 128 + n / 4096 % 64, 128 + n / 64 % 64, 128 + n % 64]

/-- Go's `utf8.DecodeRune` on a non-empty byte string: the rune and its
width; a byte that does not start a well-formed sequence (overlong forms,
surrogates and values above U+10FFFF included) gives U+FFFD and width 1. -/
def decodeRune (bs : List Nat) : Char × Nat :=
  let bad : Char × Nat := (Char.ofNat 65533, 1)
  let cont (b : Nat) : Bool := decide (128 ≤ b) && decide (b ≤ 191)
  match bs with
  | [] => bad
  | b0 :: rest =>
    if b0 < 128 then (Char.ofNat b0, 1)
    else if 194 ≤ b0 ∧ b0 ≤ 223 then
      match rest with
      | b1 :: _ =>
        if cont b1 then (Char.ofNat ((b0 - 192) * 64 + (b1 - 128)), 2) else bad
      | _ => bad
    else if 224 ≤ b0 ∧ b0 ≤ 239 then
      match rest with
      | b1 :: b2 :: _ =>
        let lo := if b0 = 224 then 160 else 128
        let hi := if b0 = 237 then 159 else 191
        if decide (lo ≤ b1) && decide (b1 ≤ hi) && cont b2 then
          (Char.ofNat ((b0 - 224) * 4096 + (b1 - 128) * 64 + (b2 - 128)), 3)
        else bad
      | _ => bad
    else if 240 ≤ b0 ∧ b0 ≤ 244 then
      match rest with
      | b1 :: b2 :: b3 :: _ =>
        let lo := if b0 = 240 then 144 else 128
        let hi := if b0 = 244 then 143 else 191
        if decide (lo ≤ b1) && decide (b1 ≤ hi) && cont b2 && cont b3 then
          (Char.ofNat ((b0 - 240) * 262144 + (b1 - 128) * 4096 + (b2 - 128) * 64 + (b3 - 128)), 4)
        else bad
      | _ => bad
    else bad

/-- The runes of a byte string, decoded one after the other; the first
argument bounds the number of runes and is the number of bytes. -/
def utf8DecodeAux : Nat → List Nat → List Char
  | 0, _ => []
  | _ + 1, [] => []
  | fuel + 1, b :: bs =>
    let r := decodeRune (b :: bs)
    r.1 :: utf8DecodeAux fuel ((b :: bs).drop r.2)

/-- The text of a Go string given by its bytes: the runes it decodes to (a
byte outside any well-formed sequence shows as U+FFFD, as in Go's own
conversion of a string to runes). -/
def utf8Decode (bs : List Nat) : List Char := utf8DecodeAux bs.length bs

/-- The bytes that `url.QueryUnescape` produces: `+` is a space, `%XX` is the
byte `XX`, any other character stands for its own bytes; `none` on a
malformed escape. -/
def queryUnescapeBytes : List Char → Option (List Nat)
  | [] => some []
  | '%' :: a :: b :: cs =>
    if ishex a && ishex b then
      (queryUnescapeBytes cs).map (fun r => (unhex a * 16 + unhex b) :: r)
    else none
  | '%' :: _ => none
  | '+' :: cs => (queryUnescapeBytes cs).map (fun r => 32 :: r)
  | c :: cs => (queryUnescapeBytes cs).map (fun r => utf8Bytes c ++ r)

/-- Go's `url.QueryUnescape`: the text of the unescaped bytes; `none` on a
malformed escape. -/
def queryUnescape (cs : List Char) : Option (List Char) :=
  (queryUnescapeBytes cs).map utf8Decode

/-- Go's `url.Values`: keys with their values, in order of first appearance. -/
abbrev Values := List (String × List String)

/-- The assignment `m[key] = append(m[key], value)`. -/
def Values.append (m : Values) (key value : String) : Values :=
  if m.any (fun kv => kv.1 == key) then
    m.map (fun kv => if kv.1 == key then (kv.1, kv.2 ++ [value]) else kv)
  else m ++ [(key, [value])]

/-- Go's `Values.Get`: the first value of the key, or `""`. -/
def Values.Get (m : Values) (key : String) : String :=
  match m.find? (fun kv => kv.1 == key) with
  | some (_, v :: _) => v
  | _ => ""

/-- Split at every `sep` (`strings.Cut` applied repeatedly). -/
def splitOnChar (sep : Char) : List Char → List (List Char)
  | [] => [[]]
  | c :: cs =>
    match splitOnChar sep cs with
    | [] => [[c]]
    | seg :: segs => if c == sep then [] :: seg :: segs else (c :: seg) :: segs

/-- The loop body of `url.parseQuery` for one `&`-separated piece: pieces
with a semicolon, empty pieces and pieces that do not unescape are skipped. -/
def parseQueryStep (m : Values) (piece : List Char) : Values :=
  if piece.contains ';' then m
  else if piece.isEmpty then m
  else
    let r := cutChar '=' piece
    match queryUnescape r.1 with
    | none => m
    | some key =>
      match queryUnescape r.2.1 with
      | none => m
      | some value => m.append (String.mk key) (String.mk value)

/-- Go's `URL.Query()`: `ParseQuery(u.RawQuery)` with the error dropped. -/
def URL.Query (u : URL) : Values :=
  (splitOnChar '&' u.RawQuery.toList).foldl parseQueryStep []

/-! ## `mockup.go`: `getNormalizedUrl` -/

/-- Go's `strings.Replace(s, old, "", 1)` for a non-empty `old`: the first
occurrence of `old` in `s`, scanning from the left, is removed. -/
def removeFirst (old : List Char) : List Char → List Char
  | [] => []
  | c :: cs =>
    match dropLit old (c :: cs) with
    | some rest => rest
    | none => c :: removeFirst old cs

/-- Go's `<` on strings: lexicographic order on the character codes. -/
def lessChars : List Char → List Char → Bool
  | _, [] => false
  | [], _ :: _ => true
  | a :: as, b :: bs =>
    if a.toNat < b.toNat then true
    else if b.toNat < a.toNat then false
    else lessChars as bs

/-- Insertion of a string into a list sorted in increasing order. -/
def insertSorted (k : String) : List String → List String
  | [] => [k]
  | x :: xs =>
    if lessChars k.toList x.toList then k :: x :: xs else x :: insertSorted k xs

/-- Go's `sort.Strings`: increasing lexicographic order. -/
def sortStrings (ks : List String) : List String :=
  ks.foldr insertSorted []

/-- The emitting loop of `getNormalizedUrl`: `k=v&` for every key but the
last, `k=v` for the last. -/
def emitParams (q : Values) (result : String) : List String → String
  | [] => result
  | [k] => result ++ k ++ "=" ++ q.Get k
  | k :: ks => emitParams q (result ++ k ++ "=" ++ q.Get k ++ "&") ks

/-- The function `getNormalizedUrl`: `none` when the URL does not parse. The
keys of the map `urlObj.Query()` are collected and sorted. -/
def getNormalizedUrl (urlStr : String) : Option String :=
  match urlParse urlStr with
  | none => none
  | some urlObj =>
    if urlObj.RawQuery.length > 0 then
      let result := String.mk (removeFirst urlObj.RawQuery.toList urlStr.toList)
      let mk := sortStrings (urlObj.Query.map Prod.fst)
      some (emitParams urlObj.Query result mk)
    else some urlStr

/-! ## Request building: `RequestBuilder`, `marshalReqBody`, `checkMockup`,
`setParams` -/

/-- The package's `ContentType` enumeration; `unknown` is any other value. -/
inductive ContentType
  | JSON
  | XML
  | BYTES
  | unknown
  deriving DecidableEq, Repr

/-- The package's `BasicAuth`. -/
structure BasicAuth where
  UserName : String
  Password : String
  deriving DecidableEq, Repr

/-- The configuration fields of `RequestBuilder` that `net.go` reads.
`Headers` is `none` for a nil map. The fields that `getClient` writes
(`clientMtxOnce`, `Client`) are in `BuilderState`. -/
structure RequestBuilder where
  Headers : Option Header := none
  Timeout : Int := 0
  ConnectTimeout : Int := 0
  BaseURL : String := ""
  ContentType : ContentType := ContentType.JSON
  DisableCache : Bool := false
  DisableTimeout : Bool := false
  FollowRedirect : Bool := false
  BasicAuth : Option BasicAuth := none
  UserAgent : String := ""
  /-- The pointer `CustomPool`: the address of a pool, `none` for nil. -/
  CustomPool : Option Nat := none
  deriving DecidableEq, Repr

/-- A request body of type `interface{}`: nil, a `[]byte`, or any other
value (identified by a tag that the marshallers interpret). -/
inductive ReqBody
  | nil
  | bytes (b : List Nat)
  | value (tag : String)
  deriving DecidableEq, Repr

/-- The fields of `*http.Request` that the package sets. -/
structure Request where
  Method : String
  URL : String
  Header : Header
  Body : List Nat
  deriving DecidableEq, Repr

/-- What the transport hands back for a request it answered: status and
headers, and the outcome of reading the body to its end. -/
structure Reply where
  httpResp : HTTPResponse
  body : Except String (List Nat)

/-- The surroundings of one call: package variables, the clock, the shared
cache's lookup and the standard-library and transport calls. -/
structure Env where
  /-- Package variable `mockUpEnv`. -/
  mockUpEnv : Bool
  /-- Package variable `mockServerURL`. -/
  mockServerURL : URL
  /-- The value of `time.Now()`. -/
  now : Time
  /-- The call `time.Parse(httpDateFormat, ·)`, `none` on error. -/
  parseTime : String → Option Time
  /-- The call `t.Format(httpDateFormat)`. -/
  formatTime : Time → String
  /-- The call `resourceCache.get`. -/
  cacheGet : String → Option Response
  /-- The call `json.Marshal`. -/
  jsonMarshal : ReqBody → Except String (List Nat)
  /-- The call `xml.Marshal`. -/
  xmlMarshal : ReqBody → Except String (List Nat)
  /-- The method `URL.String`. -/
  urlString : URL → String
  /-- The error of `http.NewRequest` for a method and a URL, if any. -/
  newRequestErr : String → String → Option String
  /-- The base64 encoding used by `Request.SetBasicAuth`. -/
  base64 : String → String
  /-- The call `client.Do`, followed by `ioutil.ReadAll` of the body. -/
  clientDo : Request → Except String Reply

/-- The function `checkMockup`: the URL to call and the cache URL, or the
error of `url.Parse`. -/
def checkMockup (env : Env) (reqURL : String) : Except String (String × String) :=
  let cacheURL := reqURL
  if env.mockUpEnv then
    match urlParse reqURL with
    | none => .error "parse error"
    | some rURL =>
      let rURL := { rURL with Scheme := env.mockServerURL.Scheme,
                              Host := env.mockServerURL.Host }
      .ok (env.urlString rURL, cacheURL)
  else .ok (reqURL, cacheURL)

/-- The method `marshalReqBody`. A nil body, or a content type outside the
three cases, yields no bytes and no error. -/
def marshalReqBody (env : Env) (rb : RequestBuilder) (body : ReqBody) :
    Except String (List Nat) :=
  match body with
  | .nil => .ok []
  | body =>
    match rb.ContentType with
    | .JSON => env.jsonMarshal body
    | .XML => env.xmlMarshal body
    | .BYTES =>
      match body with
      | .bytes b => .ok b
      | _ => .error "bytes: body is not a byte slice"
    | .unknown => .ok []

/-- Go's `http.NewRequest` when it succeeds: an empty method means GET, the
header map is empty. -/
def newRequest (verb url : String) (body : List Nat) : Request :=
  { Method := if verb == "" then "GET" else verb, URL := url, Header := [], Body := body }

/-- The custom-header loop of `setParams`, which is also the header loop of
`mockupHandler`: every value of every key of the map is added. -/
def addCustomHeaders (h : Header) (custom : Header) : Header :=
  custom.foldl (fun acc kv => kv.2.foldl (fun acc1 value => acc1.Add kv.1 value) acc) h

/-- The conditional-header block of `setParams` (the final `if`). -/
def setConditional (env : Env) (h : Header) (cacheResp : Option Response) : Header :=
  match cacheResp with
  | some c =>
    if c.revalidate then
      if c.etag != "" then h.Set "If-None-Match" c.etag
      else
        match c.lastModified with
        | some lm => h.Set "If-Modified-Since" (env.formatTime lm)
        | none => h
    else h
  | none => h

/-- The method `setParams`, returning the request with its headers set. -/
def setParams (env : Env) (rb : RequestBuilder) (req : Request)
    (cacheResp : Option Response) (cacheURL : String) : Request :=
  -- Custom Headers
  let h := match rb.Headers with
    | some custom => addCustomHeaders req.Header custom
    | none => req.Header
  -- Default headers
  let h := h.Set "Connection" "keep-alive"
  let h := h.Set "Cache-Control" "no-cache"
  -- If mockup
  let h := if env.mockUpEnv then h.Set "X-Original-URL" cacheURL else h
  -- Basic Auth
  let h := match rb.BasicAuth with
    | some ba => h.Set "Authorization" ("Basic " ++ env.base64 (ba.UserName ++ ":" ++ ba.Password))
    | none => h
  -- User Agent
  let h := h.Set "User-Agent"
    (if rb.UserAgent != "" then rb.UserAgent else "github.com/go-loco/restful")
  -- Encoding
  let cType := match rb.ContentType with
    | .JSON => "json"
    | .XML => "xml"
    | _ => ""
  let h := if cType != "" then
      let h1 := h.Set "Accept" ("application/" ++ cType)
      if matchVerbs req.Method contentVerbs then h1.Set "Content-Type" ("application/" ++ cType)
      else h1
    else h
  { req with Header := setConditional env h cacheResp }

/-! ## `doRequest` -/

/-- The observable steps of one `doRequest` call, in program order. -/
inductive Event
  /-- The call `resourceCache.get(key)`. -/
  | cacheGet (key : String)
  /-- The store `cacheResp.cacheHit.Store(true)` on the entry found under `key`. -/
  | storeHit (key : String)
  /-- The call `rb.marshalReqBody`. -/
  | marshal
  /-- The call `rb.getClient()`. -/
  | getClient
  /-- The call `client.Do(request)`. -/
  | send (req : Request)
  /-- The call `resourceCache.setNX(key, r)`. -/
  | setNX (key : String) (r : Response)
  deriving DecidableEq, Repr

/-- The cache check at the head of `doRequest` (lines 33 to 41): the entry
carried forward (`cacheResp`, with its hit marker stored) and the events. -/
def cacheCheck (env : Env) (rb : RequestBuilder) (verb reqURL : String) :
    Option Response × List Event :=
  if !rb.DisableCache && matchVerbs verb readVerbs then
    match env.cacheGet reqURL with
    | some c => (some { c with cacheHit := true }, [.cacheGet reqURL, .storeHit reqURL])
    | none => (none, [.cacheGet reqURL])
  else (none, [])

/-- The post-processing of a reply that is not a 304 (lines 92 to 107): the
result and the events it adds. -/
def postProcess (env : Env) (rb : RequestBuilder) (verb cacheURL : String)
    (httpResp : HTTPResponse) (respBody : List Nat) : Response × List Event :=
  let result := { Response.new with httpResponse := some httpResp, byteBody := some respBody }
  let (result, ttl) := setTTL env.now env.parseTime result
  let (result, lastModified) := setLastModified env.parseTime result
  let (result, etag) := setETag result
  let result := if !ttl && (lastModified || etag) then { result with revalidate := true }
    else result
  -- If Cache enable: Cache SETNX
  if !rb.DisableCache && matchVerbs verb readVerbs && (ttl || lastModified || etag) then
    (result, [.setNX cacheURL result])
  else (result, [])

/-- The anonymous function called by `doRequest` (lines 43 to 108): the final
value of `result` (`none` for a nil pointer) and the events. -/
def dispatch (env : Env) (rb : RequestBuilder) (cacheResp : Option Response)
    (verb reqURL : String) (reqBody : ReqBody) : Option Response × List Event :=
  let result := Response.new
  -- Marshal request to JSON or XML
  match marshalReqBody env rb reqBody with
  | .error err => (some { result with Err := some err }, [.marshal])
  | .ok body =>
    -- Change URL to point to Mockup server
    match checkMockup env reqURL with
    | .error err => (some { result with Err := some err }, [.marshal])
    | .ok (reqURL, cacheURL) =>
      -- Get Client (client + transport)
      match env.newRequestErr verb reqURL with
      | some err => (some { result with Err := some err }, [.marshal, .getClient])
      | none =>
        -- Set extra parameters
        let request := setParams env rb (newRequest verb reqURL body) cacheResp cacheURL
        -- Make the request
        match env.clientDo request with
        | .error err =>
          (some { result with Err := some err }, [.marshal, .getClient, .send request])
        | .ok reply =>
          -- Read response
          match reply.body with
          | .error err =>
            (some { result with Err := some err }, [.marshal, .getClient, .send request])
          | .ok respBody =>
            -- If we get a 304, return response from cache
            if reply.httpResp.StatusCode == 304 then
              (cacheResp, [.marshal, .getClient, .send request])
            else
              let r := postProcess env rb verb cacheURL reply.httpResp respBody
              (some r.1, [.marshal, .getClient, .send request] ++ r.2)

/-- The method `doRequest`: the returned pointer (`none` for nil) and the
events of the call. -/
def doRequest (env : Env) (rb : RequestBuilder) (verb reqURL : String) (reqBody : ReqBody) :
    Option Response × List Event :=
  let reqURL := rb.BaseURL ++ reqURL
  -- If Cache enable && operation is read: Cache GET
  let (cacheResp, ev) := cacheCheck env rb verb reqURL
  match cacheResp with
  | some c =>
    if !c.revalidate then (some c, ev)
    else
      let r := dispatch env rb cacheResp verb reqURL reqBody
      (r.1, ev ++ r.2)
  | none =>
    let r := dispatch env rb cacheResp verb reqURL reqBody
    (r.1, ev ++ r.2)

/-! ## `getClient` and the timeouts -/

/-- The package constants `DefaultTimeout`, `DefaultConnectTimeout` and
`DefaultMaxIdleConnsPerHost`, declared outside `net.go`. -/
structure Defaults where
  DefaultTimeout : Int
  DefaultConnectTimeout : Int
  DefaultMaxIdleConnsPerHost : Int
  deriving DecidableEq, Repr

/-- The `Proxy` field of an `http.Transport`: nil, `http.ProxyFromEnvironment`
or `http.ProxyURL(u)`. -/
inductive ProxySetting
  | nil
  | fromEnvironment
  | url (u : URL)
  deriving DecidableEq, Repr

/-- The fields of `http.Transport` that the package sets. `DialTimeout` is the
`Timeout` of the `net.Dialer` whose `DialContext` is installed (0 when none
is). -/
structure Transport where
  MaxIdleConnsPerHost : Int
  Proxy : ProxySetting
  DialTimeout : Int
  ResponseHeaderTimeout : Int
  deriving DecidableEq, Repr

/-- A value of the interface `http.RoundTripper`: nil, a `*http.Transport`
(by address) or some other implementation. -/
inductive RoundTripper
  | nil
  | transport (p : Nat)
  | other (id : Nat)
  deriving DecidableEq, Repr

/-- The package's `CustomPool`. -/
structure CustomPool where
  MaxIdleConnsPerHost : Int
  Proxy : String
  Transport : RoundTripper
  deriving DecidableEq, Repr

/-- A redirect policy `func(req *http.Request, via []*http.Request) error`:
the error it returns, `none` for nil. -/
abbrev CheckRedirectFunc := Request → List Request → Option String

/-- The fields of `http.Client` that the package sets; a nil `CheckRedirect`
(`none`) selects the client's default policy. -/
structure Client where
  Transport : RoundTripper
  CheckRedirect : Option CheckRedirectFunc

/-- The state shared by all builders: the `http.Transport` values and the
pools by address, and the package variables `defaultTransport`,
`dTransportMtxOnce` (whether it has run) and `defaultCheckRedirectFunc`. -/
structure World where
  transports : Nat → Transport
  nextTransport : Nat
  pools : Nat → CustomPool
  defaultTransport : RoundTripper
  dTransportMtxOnce : Bool
  defaultCheckRedirectFunc : Option CheckRedirectFunc

/-- The fields of a `RequestBuilder` that `getClient` writes: whether
`clientMtxOnce` has run, and the pointer `Client`. -/
structure BuilderState where
  clientMtxOnce : Bool
  Client : Option Client

/-- The method `getRequestTimeout`. -/
def getRequestTimeout (d : Defaults) (rb : RequestBuilder) : Int :=
  if rb.DisableTimeout then 0
  else if rb.Timeout > 0 then rb.Timeout
  else d.DefaultTimeout

/-- The method `getConnectionTimeout`. -/
def getConnectionTimeout (d : Defaults) (rb : RequestBuilder) : Int :=
  if rb.DisableTimeout then 0
  else if rb.ConnectTimeout > 0 then rb.ConnectTimeout
  else d.DefaultConnectTimeout

/-- Allocation `&http.Transport{...}`: the new state and the address. -/
def World.newTransport (w : World) (t : Transport) : World × Nat :=
  ({ w with transports := fun p => if p = w.nextTransport then t else w.transports p,
            nextTransport := w.nextTransport + 1 }, w.nextTransport)

/-- The body of `dTransportMtxOnce.Do` in `getClient`. -/
def initDefaultTransport (d : Defaults) (rb : RequestBuilder) (w : World) : World :=
  let w1 :=
    if w.defaultTransport = .nil then
      let r := w.newTransport
        { MaxIdleConnsPerHost := d.DefaultMaxIdleConnsPerHost
          Proxy := .fromEnvironment
          DialTimeout := getConnectionTimeout d rb
          ResponseHeaderTimeout := getRequestTimeout d rb }
      { r.1 with defaultTransport := .transport r.2 }
    else w
  -- defaultCheckRedirectFunc = http.Client{}.CheckRedirect
  { w1 with defaultCheckRedirectFunc := none }

/-- The custom-pool block of `getClient` (`if cp := rb.CustomPool; cp != nil`)
for the pool at address `cpPtr`: the new state and the transport chosen. -/
def customPoolTransport (d : Defaults) (rb : RequestBuilder) (w : World) (cpPtr : Nat) :
    World × RoundTripper :=
  let cp := w.pools cpPtr
  match cp.Transport with
  | .nil =>
    let proxy : ProxySetting :=
      if cp.Proxy != "" then
        match urlParse cp.Proxy with
        | some u => .url u
        | none => .nil
      else .nil
    let r := w.newTransport
      { MaxIdleConnsPerHost := cp.MaxIdleConnsPerHost
        Proxy := proxy
        DialTimeout := getConnectionTimeout d rb
        ResponseHeaderTimeout := getRequestTimeout d rb }
    ({ r.1 with pools := fun q =>
        if q = cpPtr then { cp with Transport := .transport r.2 } else r.1.pools q },
      .transport r.2)
  | .transport p =>
    ({ w with transports := fun q =>
        if q = p then { w.transports p with DialTimeout := getConnectionTimeout d rb,
                                            ResponseHeaderTimeout := getRequestTimeout d rb }
        else w.transports q },
      .transport p)
  | .other id =>
    -- If custom transport is not http.Transport, timeouts will not be overwritten.
    (w, .other id)

/-- The body of `rb.clientMtxOnce.Do` in `getClient`: the new state and the
new `rb.Client`. -/
def initClient (d : Defaults) (rb : RequestBuilder) (w : World) : World × Client :=
  let w1 := if w.dTransportMtxOnce then w
    else { initDefaultTransport d rb w with dTransportMtxOnce := true }
  let r := match rb.CustomPool with
    | some cpPtr => customPoolTransport d rb w1 cpPtr
    | none => (w1, w1.defaultTransport)
  (r.1, { Transport := r.2, CheckRedirect := none })

/-- The redirect policy installed when `FollowRedirect` is false. -/
def avoidRedirect : CheckRedirectFunc := fun _ _ => some "Avoided redirect attempt"

/-- The method `getClient`: the new shared state, the new builder state and
the client returned; `none` when `rb.Client` is nil after the `Once` (a nil
pointer dereference). -/
def getClient (d : Defaults) (rb : RequestBuilder) (w : World) (bs : BuilderState) :
    Option (World × BuilderState × Client) :=
  let r : World × BuilderState :=
    if bs.clientMtxOnce then (w, bs)
    else
      let ic := initClient d rb w
      (ic.1, { clientMtxOnce := true, Client := some ic.2 })
  match r.2.Client with
  | none => none
  | some c =>
    let c1 : Client :=
      if !rb.FollowRedirect then { c with CheckRedirect := some avoidRedirect }
      else { c with CheckRedirect := r.1.defaultCheckRedirectFunc }
    some (r.1, { r.2 with Client := some c1 }, c1)

/-! ## `mockup.go`: the mock map and `mockupHandler` -/

/-- The package's `Mock`. -/
structure Mock where
  URL : String
  HTTPMethod : String
  ReqHeaders : Header
  ReqBody : String
  RespHTTPCode : Int
  RespHeaders : Header
  RespBody : String
  deriving DecidableEq, Repr

/-- The package variable `mockMap`, a `map[string]*Mock`: the first entry of
a key is the live one. -/
abbrev MockMap := List (String × Mock)

/-- Map lookup `mockMap[key]`, `none` for a nil pointer. -/
def MockMap.lookup (db : MockMap) (key : String) : Option Mock :=
  (db.find? (fun kv => kv.1 == key)).map Prod.snd

/-- Map store `mockMap[key] = m`. -/
def MockMap.store (db : MockMap) (key : String) (m : Mock) : MockMap :=
  (key, m) :: db.filter (fun kv => kv.1 != key)

/-- The function `AddMockups`: the map after the call and the error, if any. -/
def AddMockups (db : MockMap) : List Mock → MockMap × Option String
  | [] => (db, none)
  | m :: mocks =>
    match getNormalizedUrl m.URL with
    | none => (db, some ("Error parsing mock with url=" ++ m.URL ++ ". Cause: parse error"))
    | some normalizedUrl => AddMockups (db.store (m.HTTPMethod ++ " " ++ normalizedUrl) m) mocks

/-- The function `FlushMockups`. -/
def FlushMockups : MockMap := []

/-- What a handler passed to its `http.ResponseWriter`: the header map built
with `Header().Add`, the status passed to `WriteHeader` and the bytes passed
to `Write`. What the writer then puts on the wire is not part of it. -/
structure Written where
  Header : Header
  StatusCode : Int
  Body : String
  deriving DecidableEq, Repr

/-- The constant `MOCK_NOT_FOUND_ERROR`. -/
def MOCK_NOT_FOUND_ERROR : String := "MockUp nil!"

/-- The check that `WriteHeader` makes on its argument (`checkWriteHeaderCode`
of `net/http`): a status outside 100..999 makes it panic. -/
def validWriteHeaderCode (code : Int) : Bool :=
  decide (100 ≤ code) && decide (code ≤ 999)

/-- The function `mockupHandler`, writing to a fresh `ResponseWriter`: what
it passes to the writer, or `none` when `writer.WriteHeader` panics on the
status, in which case `writer.Write` is never reached. -/
def mockupHandler (db : MockMap) (req : Request) : Option Written :=
  let notFound : Written := { Header := [], StatusCode := 400, Body := MOCK_NOT_FOUND_ERROR }
  match getNormalizedUrl (req.Header.Get "X-Original-URL") with
  | some normalizedUrl =>
    match db.lookup (req.Method ++ " " ++ normalizedUrl) with
    | some m =>
      -- Add headers
      let h := addCustomHeaders [] m.RespHeaders
      if validWriteHeaderCode m.RespHTTPCode then
        some { Header := h, StatusCode := m.RespHTTPCode, Body := m.RespBody }
      else none
    | none => some notFound
  | none => some notFound

/-- The key under which `AddMockups` stores a mock: the method, a space and
the normalised URL; `none` when the URL does not parse. -/
def mockKey (m : Mock) : Option String :=
  (getNormalizedUrl m.URL).map (fun normalizedUrl => m.HTTPMethod ++ " " ++ normalizedUrl)

/-- A sequence of `AddMockups` calls, one per list, the errors dropped. -/
def addAll (db : MockMap) (calls : List (List Mock)) : MockMap :=
  calls.foldl (fun d mocks => (AddMockups d mocks).1) db

/-- A header map holds the value `v` under the key `k`. -/
def Header.has (h : Header) (k v : String) : Prop :=
  ∃ vs, h.lookup k = some vs ∧ v ∈ vs

/-! ## Sample surroundings used to evaluate the definitions -/

/-- A clock reading: 2026-01-01 00:00:00 UTC, in nanoseconds. -/
def sampleNow : Time := 1767225600000000000

/-- A date parser that knows two header values in the layout
`httpDateFormat` (weekday, month number, month name, year, time): one hour
after `sampleNow`, and 2025-12-01 00:00:00 UTC, 31 days before it. -/
def sampleParse (s : String) : Option Time :=
  if s == "Thu, 01 Jan 2026 01:00:00 GMT" then some (sampleNow + 3600 * Second)
  else if s == "Mon, 12 Dec 2025 00:00:00 GMT" then some (sampleNow - 2678400 * Second)
  else none

/-- The formatter matching `sampleParse`. -/
def sampleFormat (t : Time) : String :=
  if t == sampleNow + 3600 * Second then "Thu, 01 Jan 2026 01:00:00 GMT"
  else if t == sampleNow - 2678400 * Second then "Mon, 12 Dec 2025 00:00:00 GMT"
  else "Thu, 01 Jan 1970 00:00:00 GMT"

/-- Surroundings with no mock server, a cache that answers every lookup with
`cached` and a transport that answers every request with `reply`. -/
def sampleEnv (cached : Option Response) (reply : Except String Reply) : Env :=
  { mockUpEnv := false
    mockServerURL := { Scheme := "http", Opaque := "", User := none, Host := "127.0.0.1:8080",
                       Path := "", ForceQuery := false, RawQuery := "", Fragment := "" }
    now := sampleNow
    parseTime := sampleParse
    formatTime := sampleFormat
    cacheGet := fun _ => cached
    jsonMarshal := fun b => match b with
      | .value "chan" => .error "json: unsupported type: chan int"
      | _ => .ok [110, 117, 108, 108]
    xmlMarshal := fun _ => .ok []
    urlString := fun u => u.Scheme ++ "://" ++ u.Host ++ u.Path
    newRequestErr := fun _ _ => none
    base64 := fun s => s
    clientDo := fun _ => reply }

/-- A builder with caching enabled and a base URL. -/
def sampleBuilder : RequestBuilder := { BaseURL := "http://api.example.com" }

/-- A 200 reply with the given headers and the body `[]`. -/
def sampleReply (status : Nat) (h : Header) : Except String Reply :=
  .ok { httpResp := { StatusCode := status, Header := h }, body := .ok [91, 93] }

/-- A cached entry that has an entity tag and must be revalidated. -/
def sampleEntry : Response :=
  { httpResponse := some { StatusCode := 200, Header := [("Etag", ["1234"])] },
    Err := none, byteBody := some [91, 49, 93], ttl := none, lastModified := none,
    etag := "1234", revalidate := true, cacheHit := false }

/-- The keys of the cache calls (`get` and `setNX`) in a list of events. -/
def cacheKeys : List Event → List String
  | [] => []
  | .cacheGet k :: es => k :: cacheKeys es
  | .setNX k _ :: es => k :: cacheKeys es
  | _ :: es => cacheKeys es

/-- The response that `postProcess` starts from: `result.Response = httpResp`
and `result.byteBody = respBody` on a fresh `Response`. -/
def freshResult (httpResp : HTTPResponse) (respBody : List Nat) : Response :=
  { Response.new with httpResponse := some httpResp, byteBody := some respBody }

/-- Surroundings whose transport answers 200 with `Cache-Control: max-age=60`. -/
def envMaxAge : Env := sampleEnv none (sampleReply 200 [("Cache-Control", ["max-age=60"])])

/-- The reply of `envMaxAge`'s transport. -/
def replyMaxAge : Reply :=
  { httpResp := { StatusCode := 200, Header := [("Cache-Control", ["max-age=60"])] },
    body := .ok [91, 93] }

/-- Surroundings whose transport answers 200 with an entity tag only. -/
def envETag : Env := sampleEnv none (sampleReply 200 [("Etag", ["1234"])])

/-- The reply of `envETag`'s transport. -/
def replyETag : Reply :=
  { httpResp := { StatusCode := 200, Header := [("Etag", ["1234"])] }, body := .ok [91, 93] }

/-- Surroundings whose cache holds `sampleEntry` and whose transport answers
304 with an empty body. -/
def envNotModified : Env :=
  sampleEnv (some sampleEntry)
    (.ok { httpResp := { StatusCode := 304, Header := [] }, body := .ok [] })

/-- The reply of `envNotModified`'s transport. -/
def replyNotModified : Reply :=
  { httpResp := { StatusCode := 304, Header := [] }, body := .ok [] }

/-- Surroundings whose transport fails. -/
def envDown : Env := sampleEnv none (.error "dial tcp: connection refused")

/-- A fresh result whose reply has the given headers. -/
def respWith (h : Header) : Response := freshResult { StatusCode := 200, Header := h } []

/-- A builder with custom headers, basic authentication and XML content. -/
def builderWithHeaders : RequestBuilder :=
  { BaseURL := "http://api.example.com"
    Headers := some [("x-test", ["test"]), ("Accept-Language", ["es", "en"])]
    ContentType := ContentType.XML
    BasicAuth := some { UserName := "u", Password := "p" } }

/-- A cached entry with both an entity tag and a last-modified instant. -/
def entryBoth : Response :=
  { sampleEntry with lastModified := some (sampleNow - 2678400 * Second) }

/-- A cached entry with a last-modified instant only. -/
def entryLastModified : Response :=
  { sampleEntry with etag := "", lastModified := some (sampleNow - 2678400 * Second) }

/-- Package constants: 500 ms, 1500 ms and 2 idle connections per host. -/
def sampleDefaults : Defaults :=
  { DefaultTimeout := 500000000, DefaultConnectTimeout := 1500000000,
    DefaultMaxIdleConnsPerHost := 2 }

/-- The shared state at program start: no default transport, neither `Once`
has run, every pool is a zero `CustomPool`. -/
def initialWorld : World :=
  { transports := fun _ =>
      { MaxIdleConnsPerHost := 0, Proxy := .nil, DialTimeout := 0, ResponseHeaderTimeout := 0 }
    nextTransport := 0
    pools := fun _ => { MaxIdleConnsPerHost := 0, Proxy := "", Transport := .nil }
    defaultTransport := .nil
    dTransportMtxOnce := false
    defaultCheckRedirectFunc := none }

/-- The state of a builder that has not been used. -/
def newBuilderState : BuilderState := { clientMtxOnce := false, Client := none }

/-- The `http.Transport` behind a client, when its transport is one. -/
def transportOf (w : World) (c : Client) : Option Transport :=
  match c.Transport with
  | .transport p => some (w.transports p)
  | _ => none

/-- A builder with a request timeout of one second and no custom pool. -/
def builderOneSecond : RequestBuilder := { Timeout := 1000000000 }

/-- A builder with a request timeout of five seconds and no custom pool. -/
def builderFiveSeconds : RequestBuilder := { Timeout := 5000000000 }

/-- A builder with the custom pool at address 0, a connect timeout of 1 ns
and a request timeout of 35 ms. -/
def builderWithPool : RequestBuilder :=
  { CustomPool := some 0, ConnectTimeout := 1, Timeout := 35000000 }

/-- A mock for a URL with query parameters and a fragment. -/
def sampleMock : Mock :=
  { URL := "http://mytest.com/foo?val1=1&val2=2#fragment"
    HTTPMethod := "GET"
    ReqHeaders := [("Hello", ["world"])]
    ReqBody := ""
    RespHTTPCode := 200
    RespHeaders := []
    RespBody := "foo" }

/-- A mock whose `RespHTTPCode` was left at its zero value. -/
def mockWithoutCode : Mock := { sampleMock with RespHTTPCode := 0 }

/-- A mock for another URL, added after `sampleMock`. -/
def otherMock : Mock :=
  { sampleMock with URL := "http://mytest.com/bar", RespHTTPCode := 404, RespBody := "bar" }

/-- The request that reaches the mock server for `sampleMock`. -/
def sampleMockRequest : Request :=
  { Method := "GET", URL := "http://127.0.0.1:8080/foo?val1=1&val2=2"
    Header := [("X-Original-Url", ["http://mytest.com/foo?val1=1&val2=2#fragment"])]
    Body := [] }

/-- Surroundings with an empty cache whose transport answers 304 with an
empty body. -/
def envBare304 : Env :=
  sampleEnv none (.ok { httpResp := { StatusCode := 304, Header := [] }, body := .ok [] })

/-! ## Basic facts -/

theorem matchVerbs_readVerbs (verb : String) :
    matchVerbs verb readVerbs = true ↔ verb = "GET" ∨ verb = "HEAD" ∨ verb = "OPTIONS" := by
  unfold readVerbs
  simp only [matchVerbs, beq_iff_eq]
  constructor
  · intro h
    split_ifs at h with h1 h2 h3
    · exact Or.inl h1.symm
    · exact Or.inr (Or.inl h2.symm)
    · exact Or.inr (Or.inr h3.symm)
  · rintro (h | h | h) <;> subst h <;> simp

theorem cacheCheck_found (env : Env) (rb : RequestBuilder) (verb key : String) (c : Response)
    (hverb : matchVerbs verb readVerbs = true) (hcache : rb.DisableCache = false)
    (hget : env.cacheGet key = some c) :
    cacheCheck env rb verb key =
      (some { c with cacheHit := true }, [.cacheGet key, .storeHit key]) := by
  simp [cacheCheck, hverb, hcache, hget]

/-! ## C1: cache hit short-circuit -/

/-- C1: for a read-class verb on a builder with caching enabled, when
`resourceCache.get(BaseURL+reqURL)` returns an entry whose revalidate flag is
false, `doRequest` returns that entry with its hit marker set, and the only
steps of the call are the cache lookup and the store of the hit marker: no
marshalling, no client, no transport request, no `setNX`. -/
theorem doRequest_cache_hit (env : Env) (rb : RequestBuilder) (verb reqURL : String)
    (reqBody : ReqBody) (c : Response)
    (hverb : verb = "GET" ∨ verb = "HEAD" ∨ verb = "OPTIONS")
    (hcache : rb.DisableCache = false)
    (hget : env.cacheGet (rb.BaseURL ++ reqURL) = some c)
    (hrev : c.revalidate = false) :
    (doRequest env rb verb reqURL reqBody).1 = some { c with cacheHit := true } ∧
    (doRequest env rb verb reqURL reqBody).2 =
      [.cacheGet (rb.BaseURL ++ reqURL), .storeHit (rb.BaseURL ++ reqURL)] ∧
    Event.marshal ∉ (doRequest env rb verb reqURL reqBody).2 ∧
    Event.getClient ∉ (doRequest env rb verb reqURL reqBody).2 ∧
    (∀ req, Event.send req ∉ (doRequest env rb verb reqURL reqBody).2) ∧
    (∀ k r, Event.setNX k r ∉ (doRequest env rb verb reqURL reqBody).2) := by
  have hv := (matchVerbs_readVerbs verb).2 hverb
  have hc := cacheCheck_found env rb verb (rb.BaseURL ++ reqURL) c hv hcache hget
  have h : doRequest env rb verb reqURL reqBody =
      (some { c with cacheHit := true },
        [.cacheGet (rb.BaseURL ++ reqURL), .storeHit (rb.BaseURL ++ reqURL)]) := by
    simp [doRequest, hc, hrev]
  simp [h]

/-- C1 at a concrete call: a GET whose cached entry has a TTL and no
revalidate flag. -/
theorem doRequest_cache_hit_witness :
    (doRequest (sampleEnv (some { sampleEntry with revalidate := false }) (.error "down"))
        sampleBuilder "GET" "/cache/user" .nil).1
      = some { sampleEntry with revalidate := false, cacheHit := true } :=
  (doRequest_cache_hit (sampleEnv (some { sampleEntry with revalidate := false }) (.error "down"))
    sampleBuilder "GET" "/cache/user" .nil { sampleEntry with revalidate := false }
    (Or.inl rfl) rfl rfl rfl).1

/-! ## Shape of a call that reaches the transport -/

theorem checkMockup_cacheURL (env : Env) (reqURL url1 cacheURL : String)
    (h : checkMockup env reqURL = .ok (url1, cacheURL)) : cacheURL = reqURL := by
  unfold checkMockup at h
  split at h
  · split at h
    · cases h
    · simp only [Except.ok.injEq, Prod.mk.injEq] at h
      exact h.2.symm
  · simp only [Except.ok.injEq, Prod.mk.injEq] at h
    exact h.2.symm

theorem postProcess_events (env : Env) (rb : RequestBuilder) (verb cacheURL : String)
    (httpResp : HTTPResponse) (respBody : List Nat) :
    (postProcess env rb verb cacheURL httpResp respBody).2 = [] ∨
    (postProcess env rb verb cacheURL httpResp respBody).2 =
      [.setNX cacheURL (postProcess env rb verb cacheURL httpResp respBody).1] := by
  unfold postProcess
  simp only
  split <;> simp

theorem doRequest_eq_dispatch (env : Env) (rb : RequestBuilder) (verb reqURL : String)
    (reqBody : ReqBody)
    (hnohit : ∀ c, (cacheCheck env rb verb (rb.BaseURL ++ reqURL)).1 = some c →
      c.revalidate = true) :
    doRequest env rb verb reqURL reqBody =
      ((dispatch env rb (cacheCheck env rb verb (rb.BaseURL ++ reqURL)).1 verb
          (rb.BaseURL ++ reqURL) reqBody).1,
       (cacheCheck env rb verb (rb.BaseURL ++ reqURL)).2 ++
        (dispatch env rb (cacheCheck env rb verb (rb.BaseURL ++ reqURL)).1 verb
          (rb.BaseURL ++ reqURL) reqBody).2) := by
  unfold doRequest
  simp only
  generalize cacheCheck env rb verb (rb.BaseURL ++ reqURL) = cc at hnohit ⊢
  obtain ⟨cr, ev⟩ := cc
  cases cr with
  | none => rfl
  | some c => simp [hnohit c rfl]

theorem dispatch_answered (env : Env) (rb : RequestBuilder) (cacheResp : Option Response)
    (verb reqURL : String) (reqBody : ReqBody) (body : List Nat) (url1 cacheURL : String)
    (reply : Reply) (respBody : List Nat)
    (hm : marshalReqBody env rb reqBody = .ok body)
    (hmock : checkMockup env reqURL = .ok (url1, cacheURL))
    (hnew : env.newRequestErr verb url1 = none)
    (hdo : env.clientDo (setParams env rb (newRequest verb url1 body) cacheResp cacheURL)
      = .ok reply)
    (hbody : reply.body = .ok respBody) :
    dispatch env rb cacheResp verb reqURL reqBody =
      if reply.httpResp.StatusCode = 304 then
        (cacheResp, [.marshal, .getClient,
          .send (setParams env rb (newRequest verb url1 body) cacheResp cacheURL)])
      else
        (some (postProcess env rb verb cacheURL reply.httpResp respBody).1,
          [.marshal, .getClient,
            .send (setParams env rb (newRequest verb url1 body) cacheResp cacheURL)] ++
          (postProcess env rb verb cacheURL reply.httpResp respBody).2) := by
  unfold dispatch
  simp only [hm, hmock, hnew, hdo, hbody]
  split <;> simp_all

theorem dispatch_cacheKeys (env : Env) (rb : RequestBuilder) (cacheResp : Option Response)
    (verb reqURL : String) (reqBody : ReqBody) :
    ∀ k ∈ cacheKeys (dispatch env rb cacheResp verb reqURL reqBody).2, k = reqURL := by
  intro k hk
  unfold dispatch at hk
  simp only at hk
  split at hk
  · simp [cacheKeys] at hk
  · split at hk
    · simp [cacheKeys] at hk
    · rename_i u cu hmock
      have hcu := checkMockup_cacheURL env reqURL u cu hmock
      split at hk
      · simp [cacheKeys] at hk
      · split at hk
        · simp [cacheKeys] at hk
        · split at hk
          · simp [cacheKeys] at hk
          · split at hk
            · simp [cacheKeys] at hk
            · rcases postProcess_events env rb verb cu _ _ with h | h
              · rw [h] at hk
                simp [cacheKeys] at hk
              · rw [h] at hk
                simp [cacheKeys] at hk
                rw [hk, hcu]

/-! ## Facts about the freshness functions -/

theorem setTTL_fst (now : Time) (parseTime : String → Option Time) (resp : Response) :
    (setTTL now parseTime resp).1 = { resp with ttl := (setTTL now parseTime resp).1.ttl } := by
  unfold setTTL
  repeat' split
  all_goals rfl

theorem setTTL_ttl_isSome (now : Time) (parseTime : String → Option Time) (resp : Response)
    (h : resp.ttl = none) :
    (setTTL now parseTime resp).1.ttl.isSome = (setTTL now parseTime resp).2 := by
  unfold setTTL
  repeat' split
  all_goals simp [h]

theorem postProcess_fst (env : Env) (rb : RequestBuilder) (verb cacheURL : String)
    (httpResp : HTTPResponse) (respBody : List Nat) :
    (postProcess env rb verb cacheURL httpResp respBody).1 =
      { freshResult httpResp respBody with
        ttl := (setTTL env.now env.parseTime (freshResult httpResp respBody)).1.ttl
        lastModified := env.parseTime (httpResp.Header.Get "Last-Modified")
        etag := httpResp.Header.Get "ETag"
        revalidate := !(setTTL env.now env.parseTime (freshResult httpResp respBody)).2 &&
          ((env.parseTime (httpResp.Header.Get "Last-Modified")).isSome ||
            httpResp.Header.Get "ETag" != "") } := by
  unfold postProcess
  simp only
  rw [show ({ Response.new with httpResponse := some httpResp, byteBody := some respBody }
    : Response) = freshResult httpResp respBody from rfl]
  rw [setTTL_fst]
  generalize (setTTL env.now env.parseTime (freshResult httpResp respBody)).2 = ttl
  generalize (setTTL env.now env.parseTime (freshResult httpResp respBody)).1.ttl = t
  simp only [setLastModified, setETag, Response.Header, freshResult, Response.new]
  cases hp : env.parseTime (httpResp.Header.Get "Last-Modified") <;>
    by_cases he : httpResp.Header.Get "ETag" = "" <;>
    cases ttl <;> simp [he] <;> split <;> simp_all

theorem postProcess_snd (env : Env) (rb : RequestBuilder) (verb cacheURL : String)
    (httpResp : HTTPResponse) (respBody : List Nat) :
    (postProcess env rb verb cacheURL httpResp respBody).2 =
      if (!rb.DisableCache && matchVerbs verb readVerbs &&
          ((setTTL env.now env.parseTime (freshResult httpResp respBody)).2 ||
            (env.parseTime (httpResp.Header.Get "Last-Modified")).isSome ||
            httpResp.Header.Get "ETag" != "")) = true
      then [.setNX cacheURL (postProcess env rb verb cacheURL httpResp respBody).1]
      else [] := by
  unfold postProcess
  simp only
  rw [show ({ Response.new with httpResponse := some httpResp, byteBody := some respBody }
    : Response) = freshResult httpResp respBody from rfl]
  rw [setTTL_fst]
  generalize (setTTL env.now env.parseTime (freshResult httpResp respBody)).2 = ttl
  generalize (setTTL env.now env.parseTime (freshResult httpResp respBody)).1.ttl = t
  simp only [setLastModified, setETag, Response.Header, freshResult, Response.new]
  cases hp : env.parseTime (httpResp.Header.Get "Last-Modified") <;>
    by_cases he : httpResp.Header.Get "ETag" = "" <;>
    cases ttl <;> simp [he] <;> split_ifs <;> rfl

theorem doRequest_answered (env : Env) (rb : RequestBuilder) (verb reqURL : String)
    (reqBody : ReqBody) (body : List Nat) (url1 cacheURL : String) (reply : Reply)
    (respBody : List Nat)
    (hnohit : ∀ c, (cacheCheck env rb verb (rb.BaseURL ++ reqURL)).1 = some c →
      c.revalidate = true)
    (hm : marshalReqBody env rb reqBody = .ok body)
    (hmock : checkMockup env (rb.BaseURL ++ reqURL) = .ok (url1, cacheURL))
    (hnew : env.newRequestErr verb url1 = none)
    (hdo : env.clientDo (setParams env rb (newRequest verb url1 body)
      (cacheCheck env rb verb (rb.BaseURL ++ reqURL)).1 cacheURL) = .ok reply)
    (hbody : reply.body = .ok respBody)
    (h304 : reply.httpResp.StatusCode ≠ 304) :
    doRequest env rb verb reqURL reqBody =
      (some (postProcess env rb verb cacheURL reply.httpResp respBody).1,
        (cacheCheck env rb verb (rb.BaseURL ++ reqURL)).2 ++
          ([.marshal, .getClient, .send (setParams env rb (newRequest verb url1 body)
            (cacheCheck env rb verb (rb.BaseURL ++ reqURL)).1 cacheURL)] ++
          (postProcess env rb verb cacheURL reply.httpResp respBody).2)) := by
  rw [doRequest_eq_dispatch env rb verb reqURL reqBody hnohit,
    dispatch_answered env rb _ verb _ reqBody body url1 cacheURL reply respBody hm hmock hnew
      hdo hbody]
  simp [h304]

theorem cacheCheck_events_no_setNX (env : Env) (rb : RequestBuilder) (verb key : String) :
    ∀ k r, Event.setNX k r ∉ (cacheCheck env rb verb key).2 := by
  intro k r
  unfold cacheCheck
  repeat' split
  all_goals simp

/-! ## C2: when a response is stored -/

/-- C2: for a call that gets past the cache check and receives a reply other
than 304 with no error, `doRequest` returns a result without error, and it
calls `resourceCache.setNX` exactly when the verb is GET, HEAD or OPTIONS, the
builder has caching enabled, and `setTTL` established a positive TTL or the
result's revalidate flag is true; the call stores the returned result under
the cache URL. -/
theorem doRequest_setNX_iff (env : Env) (rb : RequestBuilder) (verb reqURL : String)
    (reqBody : ReqBody) (body : List Nat) (url1 cacheURL : String) (reply : Reply)
    (respBody : List Nat)
    (hnohit : ∀ c, (cacheCheck env rb verb (rb.BaseURL ++ reqURL)).1 = some c →
      c.revalidate = true)
    (hm : marshalReqBody env rb reqBody = .ok body)
    (hmock : checkMockup env (rb.BaseURL ++ reqURL) = .ok (url1, cacheURL))
    (hnew : env.newRequestErr verb url1 = none)
    (hdo : env.clientDo (setParams env rb (newRequest verb url1 body)
      (cacheCheck env rb verb (rb.BaseURL ++ reqURL)).1 cacheURL) = .ok reply)
    (hbody : reply.body = .ok respBody)
    (h304 : reply.httpResp.StatusCode ≠ 304) :
    ∃ result, (doRequest env rb verb reqURL reqBody).1 = some result ∧ result.Err = none ∧
      ((∃ k r, Event.setNX k r ∈ (doRequest env rb verb reqURL reqBody).2) ↔
        ((verb = "GET" ∨ verb = "HEAD" ∨ verb = "OPTIONS") ∧ rb.DisableCache = false ∧
          ((setTTL env.now env.parseTime (freshResult reply.httpResp respBody)).2 = true ∨
            result.revalidate = true))) ∧
      (∀ k r, Event.setNX k r ∈ (doRequest env rb verb reqURL reqBody).2 →
        k = cacheURL ∧ r = result) := by
  have hd := doRequest_answered env rb verb reqURL reqBody body url1 cacheURL reply respBody
    hnohit hm hmock hnew hdo hbody h304
  have hcc := cacheCheck_events_no_setNX env rb verb (rb.BaseURL ++ reqURL)
  refine ⟨_, by rw [hd], ?_, ?_, ?_⟩
  · rw [postProcess_fst]; rfl
  · rw [hd, ← matchVerbs_readVerbs]
    have hrev : (postProcess env rb verb cacheURL reply.httpResp respBody).1.revalidate =
        (!(setTTL env.now env.parseTime (freshResult reply.httpResp respBody)).2 &&
          ((env.parseTime (reply.httpResp.Header.Get "Last-Modified")).isSome ||
            reply.httpResp.Header.Get "ETag" != "")) := by
      rw [postProcess_fst]
    simp only [List.mem_append, List.mem_cons, List.mem_singleton, reduceCtorEq, false_or,
      List.not_mem_nil, or_false]
    rw [postProcess_snd, hrev]
    generalize (setTTL env.now env.parseTime (freshResult reply.httpResp respBody)).2 = ttl
    constructor
    · rintro ⟨k, r, h | h⟩
      · exact absurd h (hcc k r)
      · split_ifs at h with hc
        · cases ttl <;> simp_all
        · simp at h
    · rintro ⟨hv, hc, ht⟩
      refine ⟨cacheURL, (postProcess env rb verb cacheURL reply.httpResp respBody).1,
        Or.inr ?_⟩
      rw [if_pos]
      · exact List.mem_singleton.2 rfl
      · cases ttl <;> simp_all
  · intro k r hk
    rw [hd] at hk
    simp only [List.mem_append, List.mem_cons, List.mem_singleton, reduceCtorEq, false_or,
      List.not_mem_nil, or_false] at hk
    rcases hk with h | h
    · exact absurd h (hcc k r)
    · rw [postProcess_snd] at h
      split_ifs at h
      · simp only [List.mem_singleton, Event.setNX.injEq] at h
        exact h
      · simp at h

/-- C2 at a concrete call: a GET answered with `Cache-Control: max-age=60`
is stored. -/
theorem doRequest_setNX_iff_witness :
    ∃ k r, Event.setNX k r ∈ (doRequest envMaxAge sampleBuilder "GET" "/cache/user" .nil).2 := by
  obtain ⟨result, _, _, hiff, _⟩ := doRequest_setNX_iff envMaxAge sampleBuilder "GET"
    "/cache/user" .nil [] "http://api.example.com/cache/user"
    "http://api.example.com/cache/user" replyMaxAge [91, 93]
    (fun c h => by cases h) rfl rfl rfl rfl rfl (by decide)
  exact hiff.2 ⟨Or.inl rfl, rfl, Or.inl (by decide)⟩

/-! ## C3: the revalidate flag -/

/-- C3: for a call that receives a reply other than 304, the result's
revalidate flag is true exactly when `setTTL` established no positive TTL and
the reply has a parseable Last-Modified header or a non-empty ETag header;
whatever `setTTL` returned, the result's `lastModified` is the parsed
Last-Modified header (absent when it does not parse) and its `etag` is the
ETag header. -/
theorem doRequest_revalidate_iff (env : Env) (rb : RequestBuilder) (verb reqURL : String)
    (reqBody : ReqBody) (body : List Nat) (url1 cacheURL : String) (reply : Reply)
    (respBody : List Nat)
    (hnohit : ∀ c, (cacheCheck env rb verb (rb.BaseURL ++ reqURL)).1 = some c →
      c.revalidate = true)
    (hm : marshalReqBody env rb reqBody = .ok body)
    (hmock : checkMockup env (rb.BaseURL ++ reqURL) = .ok (url1, cacheURL))
    (hnew : env.newRequestErr verb url1 = none)
    (hdo : env.clientDo (setParams env rb (newRequest verb url1 body)
      (cacheCheck env rb verb (rb.BaseURL ++ reqURL)).1 cacheURL) = .ok reply)
    (hbody : reply.body = .ok respBody)
    (h304 : reply.httpResp.StatusCode ≠ 304) :
    ∃ result, (doRequest env rb verb reqURL reqBody).1 = some result ∧
      (result.revalidate = true ↔
        ((setTTL env.now env.parseTime (freshResult reply.httpResp respBody)).2 = false ∧
          ((env.parseTime (reply.httpResp.Header.Get "Last-Modified")).isSome = true ∨
            reply.httpResp.Header.Get "ETag" ≠ ""))) ∧
      result.lastModified = env.parseTime (reply.httpResp.Header.Get "Last-Modified") ∧
      result.etag = reply.httpResp.Header.Get "ETag" := by
  have hd := doRequest_answered env rb verb reqURL reqBody body url1 cacheURL reply respBody
    hnohit hm hmock hnew hdo hbody h304
  refine ⟨_, by rw [hd], ?_, ?_, ?_⟩
  · rw [postProcess_fst]
    simp
  · rw [postProcess_fst]
  · rw [postProcess_fst]

/-- C3 at a concrete call: a GET answered with an entity tag and no TTL
yields a result flagged for revalidation. -/
theorem doRequest_revalidate_iff_witness :
    ∃ result, (doRequest envETag sampleBuilder "GET" "/cache/etag/user" .nil).1 = some result ∧
      result.revalidate = true ∧ result.etag = "1234" := by
  obtain ⟨result, h1, hiff, _, he⟩ := doRequest_revalidate_iff envETag sampleBuilder "GET"
    "/cache/etag/user" .nil [] "http://api.example.com/cache/etag/user"
    "http://api.example.com/cache/etag/user" replyETag [91, 93]
    (fun c h => by cases h) rfl rfl rfl rfl rfl (by decide)
  exact ⟨result, h1, hiff.2 ⟨by decide, Or.inr (by decide)⟩, by rw [he]; decide⟩

/-! ## C7: a 304 reply returns the carried entry -/

/-- C7: when a read-class call on a caching builder finds an entry flagged
for revalidation, carries it into the dispatch and the transport answers 304,
`doRequest` returns the carried entry, unchanged but for its hit marker being
set (so the body is the cached one, not the received one), and does not call
`setNX`. -/
theorem doRequest_not_modified (env : Env) (rb : RequestBuilder) (verb reqURL : String)
    (reqBody : ReqBody) (c : Response) (body : List Nat) (url1 cacheURL : String)
    (reply : Reply) (respBody : List Nat)
    (hverb : verb = "GET" ∨ verb = "HEAD" ∨ verb = "OPTIONS")
    (hcache : rb.DisableCache = false)
    (hget : env.cacheGet (rb.BaseURL ++ reqURL) = some c)
    (hrev : c.revalidate = true)
    (hm : marshalReqBody env rb reqBody = .ok body)
    (hmock : checkMockup env (rb.BaseURL ++ reqURL) = .ok (url1, cacheURL))
    (hnew : env.newRequestErr verb url1 = none)
    (hdo : env.clientDo (setParams env rb (newRequest verb url1 body)
      (some { c with cacheHit := true }) cacheURL) = .ok reply)
    (hbody : reply.body = .ok respBody)
    (h304 : reply.httpResp.StatusCode = 304) :
    (doRequest env rb verb reqURL reqBody).1 = some { c with cacheHit := true } ∧
    (∀ r, (doRequest env rb verb reqURL reqBody).1 = some r → r.byteBody = c.byteBody) ∧
    (∀ k r, Event.setNX k r ∉ (doRequest env rb verb reqURL reqBody).2) := by
  have hv := (matchVerbs_readVerbs verb).2 hverb
  have hc := cacheCheck_found env rb verb (rb.BaseURL ++ reqURL) c hv hcache hget
  have hnohit : ∀ c1, (cacheCheck env rb verb (rb.BaseURL ++ reqURL)).1 = some c1 →
      c1.revalidate = true := by
    intro c1 h
    rw [hc] at h
    cases h
    exact hrev
  have hd : doRequest env rb verb reqURL reqBody =
      (some { c with cacheHit := true },
        [.cacheGet (rb.BaseURL ++ reqURL), .storeHit (rb.BaseURL ++ reqURL)] ++
          [.marshal, .getClient, .send (setParams env rb (newRequest verb url1 body)
            (some { c with cacheHit := true }) cacheURL)]) := by
    rw [doRequest_eq_dispatch env rb verb reqURL reqBody hnohit, hc,
      dispatch_answered env rb _ verb _ reqBody body url1 cacheURL reply respBody hm hmock hnew
        hdo hbody]
    simp [h304]
  refine ⟨by rw [hd], ?_, ?_⟩
  · intro r hr
    rw [hd] at hr
    cases hr
    rfl
  · intro k r
    rw [hd]
    simp

/-- C7 at a concrete call: the cached entry with entity tag 1234 comes back
on a 304. -/
theorem doRequest_not_modified_witness :
    (doRequest envNotModified sampleBuilder "GET" "/cache/etag/user" .nil).1 =
      some { sampleEntry with cacheHit := true } :=
  (doRequest_not_modified envNotModified sampleBuilder "GET" "/cache/etag/user" .nil
    sampleEntry [] "http://api.example.com/cache/etag/user"
    "http://api.example.com/cache/etag/user" replyNotModified []
    (Or.inl rfl) rfl rfl rfl rfl rfl rfl rfl rfl rfl).1

/-! ## C8: failures carry an error and store nothing -/

/-- C8: in a call that gets past the cache check, when body marshalling, the
mock URL rewriting, the request construction, the transport call or the
reading of the response body fails, the returned result is a fresh `Response`
holding only the error: `Err` is set, there is no HTTP response and no body,
and `setNX` is not called. -/
theorem doRequest_failure (env : Env) (rb : RequestBuilder) (verb reqURL : String)
    (reqBody : ReqBody)
    (hnohit : ∀ c, (cacheCheck env rb verb (rb.BaseURL ++ reqURL)).1 = some c →
      c.revalidate = true)
    (hfail :
      (∃ e, marshalReqBody env rb reqBody = .error e) ∨
      (∃ e, checkMockup env (rb.BaseURL ++ reqURL) = .error e) ∨
      (∃ url1 cacheURL e, checkMockup env (rb.BaseURL ++ reqURL) = .ok (url1, cacheURL) ∧
        env.newRequestErr verb url1 = some e) ∨
      (∃ body url1 cacheURL e, marshalReqBody env rb reqBody = .ok body ∧
        checkMockup env (rb.BaseURL ++ reqURL) = .ok (url1, cacheURL) ∧
        env.clientDo (setParams env rb (newRequest verb url1 body)
          (cacheCheck env rb verb (rb.BaseURL ++ reqURL)).1 cacheURL) = .error e) ∨
      (∃ body url1 cacheURL reply e, marshalReqBody env rb reqBody = .ok body ∧
        checkMockup env (rb.BaseURL ++ reqURL) = .ok (url1, cacheURL) ∧
        env.clientDo (setParams env rb (newRequest verb url1 body)
          (cacheCheck env rb verb (rb.BaseURL ++ reqURL)).1 cacheURL) = .ok reply ∧
        reply.body = .error e)) :
    (∃ e, (doRequest env rb verb reqURL reqBody).1 = some { Response.new with Err := some e }) ∧
    (∀ r, (doRequest env rb verb reqURL reqBody).1 = some r →
      r.Err ≠ none ∧ r.httpResponse = none ∧ r.byteBody = none) ∧
    (∀ k r, Event.setNX k r ∉ (doRequest env rb verb reqURL reqBody).2) := by
  have hcc := cacheCheck_events_no_setNX env rb verb (rb.BaseURL ++ reqURL)
  have key : ∃ e evs, dispatch env rb (cacheCheck env rb verb (rb.BaseURL ++ reqURL)).1 verb
      (rb.BaseURL ++ reqURL) reqBody = (some { Response.new with Err := some e }, evs) ∧
      ∀ k r, Event.setNX k r ∉ evs := by
    unfold dispatch
    simp only
    rcases hfail with ⟨e, h⟩ | ⟨e, h⟩ | ⟨u, cu, e, h1, h2⟩ | ⟨b, u, cu, e, h1, h2, h3⟩ |
      ⟨b, u, cu, reply, e, h1, h2, h3, h4⟩
    · rw [h]
      exact ⟨e, _, rfl, by simp⟩
    · cases hmb : marshalReqBody env rb reqBody with
      | error e1 => exact ⟨e1, _, rfl, by simp⟩
      | ok b =>
        simp only [h]
        exact ⟨e, _, rfl, by simp⟩
    · cases hmb : marshalReqBody env rb reqBody with
      | error e1 => exact ⟨e1, _, rfl, by simp⟩
      | ok b =>
        simp only [h1, h2]
        exact ⟨e, _, rfl, by simp⟩
    · simp only [h1, h2]
      cases hn : env.newRequestErr verb u with
      | some e1 => exact ⟨e1, _, rfl, by simp⟩
      | none =>
        simp only [h3]
        exact ⟨e, _, rfl, by simp⟩
    · simp only [h1, h2]
      cases hn : env.newRequestErr verb u with
      | some e1 => exact ⟨e1, _, rfl, by simp⟩
      | none =>
        simp only [h3, h4]
        exact ⟨e, _, rfl, by simp⟩
  obtain ⟨e, evs, hde, hevs⟩ := key
  have hd := doRequest_eq_dispatch env rb verb reqURL reqBody hnohit
  rw [hde] at hd
  refine ⟨⟨e, by rw [hd]⟩, ?_, ?_⟩
  · intro r hr
    rw [hd] at hr
    cases hr
    exact ⟨by simp, rfl, rfl⟩
  · intro k r
    rw [hd]
    simp only [List.mem_append, not_or]
    exact ⟨hcc k r, hevs k r⟩

/-- C8 at a concrete call: a GET whose transport call fails. -/
theorem doRequest_failure_witness :
    (∃ e, (doRequest envDown sampleBuilder "GET" "/user" .nil).1
      = some { Response.new with Err := some e }) :=
  (doRequest_failure envDown sampleBuilder "GET" "/user" .nil (fun c h => by cases h)
    (Or.inr (Or.inr (Or.inr (Or.inl ⟨[], "http://api.example.com/user",
      "http://api.example.com/user", "dial tcp: connection refused", rfl, rfl, rfl⟩))))).1

/-! ## C9: the cache key -/

theorem cacheKeys_append (xs ys : List Event) :
    cacheKeys (xs ++ ys) = cacheKeys xs ++ cacheKeys ys := by
  induction xs with
  | nil => rfl
  | cons x xs ih => cases x <;> simp [cacheKeys, ih]

theorem cacheCheck_cacheKeys (env : Env) (rb : RequestBuilder) (verb key : String) :
    ∀ k ∈ cacheKeys (cacheCheck env rb verb key).2, k = key := by
  intro k hk
  unfold cacheCheck at hk
  repeat' split at hk
  all_goals simp [cacheKeys] at hk
  all_goals exact hk

/-- C9, as the code has it: every key that `doRequest` passes to
`resourceCache.get` or `resourceCache.setNX` is the string `BaseURL + reqURL`
as given, with no normalisation of the query parameters. -/
theorem doRequest_cache_key_raw (env : Env) (rb : RequestBuilder) (verb reqURL : String)
    (reqBody : ReqBody) :
    (cacheKeys (doRequest env rb verb reqURL reqBody).2).all
      (fun k => k == rb.BaseURL ++ reqURL) = true := by
  rw [List.all_eq_true]
  intro k hk
  rw [beq_iff_eq]
  have hcc := cacheCheck_cacheKeys env rb verb (rb.BaseURL ++ reqURL)
  unfold doRequest at hk
  simp only at hk
  generalize cacheCheck env rb verb (rb.BaseURL ++ reqURL) = cc at hk hcc
  obtain ⟨cr, ev⟩ := cc
  cases cr with
  | none =>
    simp only [cacheKeys_append, List.mem_append] at hk
    rcases hk with h | h
    · exact hcc k h
    · exact dispatch_cacheKeys env rb _ verb _ reqBody k h
  | some c =>
    simp only at hk
    split at hk
    · exact hcc k hk
    · simp only [cacheKeys_append, List.mem_append] at hk
      rcases hk with h | h
      · exact hcc k h
      · exact dispatch_cacheKeys env rb _ verb _ reqBody k h

/-- C9 as stated fails: two GETs whose URLs differ only in the order of
their query parameters have the same normalised URL, yet `doRequest` passes
different keys to `get` and `setNX`, each the URL as written. -/
theorem doRequest_cache_key_not_normalized :
    getNormalizedUrl "http://api.example.com/foo?b=2&a=1" =
      getNormalizedUrl "http://api.example.com/foo?a=1&b=2" ∧
    cacheKeys (doRequest envMaxAge sampleBuilder "GET" "/foo?b=2&a=1" .nil).2 =
      ["http://api.example.com/foo?b=2&a=1", "http://api.example.com/foo?b=2&a=1"] ∧
    cacheKeys (doRequest envMaxAge sampleBuilder "GET" "/foo?a=1&b=2" .nil).2 =
      ["http://api.example.com/foo?a=1&b=2", "http://api.example.com/foo?a=1&b=2"] := by
  refine ⟨?_, ?_, ?_⟩ <;> decide

/-! ## C10: `getNormalizedUrl` and the order of query parameters -/

/-- C10 at a failing input: the two URLs have the same scheme, host and
path and the same two query pairs in a different order, and their normalised
forms differ, because the first occurrence of the raw query text that
`strings.Replace` removes lies in the path of the first URL. -/
theorem getNormalizedUrl_order_differs :
    getNormalizedUrl "http://h/b=2&a=1?b=2&a=1" = some "http://h/?b=2&a=1a=1&b=2" ∧
    getNormalizedUrl "http://h/b=2&a=1?a=1&b=2" = some "http://h/b=2&a=1?a=1&b=2" ∧
    getNormalizedUrl "http://h/b=2&a=1?b=2&a=1" ≠ getNormalizedUrl "http://h/b=2&a=1?a=1&b=2" := by
  refine ⟨?_, ?_, ?_⟩ <;> decide

/-! ## C4: `max-age` and `s-maxage` -/

/-- C4 as stated fails for large values: at 2^63 seconds `strconv.Atoi`
reports a range error and `setTTL` returns false with `ttl` unset; at
9223372037 seconds the `int64` nanosecond product wraps and the stored
instant lies before `now`. -/
theorem setTTL_large_max_age :
    setTTL sampleNow sampleParse
        (respWith [("Cache-Control", ["max-age=9223372036854775808"])]) =
      (respWith [("Cache-Control", ["max-age=9223372036854775808"])], false) ∧
    (setTTL sampleNow sampleParse (respWith [("Cache-Control", ["max-age=9223372037"])])).1.ttl =
      some (sampleNow - 9223372036709551616) := by
  refine ⟨?_, ?_⟩ <;> decide

/-! ## C5: `Expires` -/

/-- C5 as stated fails when a directive is present with value 0: with
`Cache-Control: max-age=0` and an `Expires` header that parses to an instant
one hour after `now`, `setTTL` returns false and leaves `ttl` unset. -/
theorem setTTL_zero_max_age_ignores_expires :
    sampleParse "Thu, 01 Jan 2026 01:00:00 GMT" = some (sampleNow + 3600 * Second) ∧
    sampleNow < sampleNow + 3600 * Second ∧
    setTTL sampleNow sampleParse
        (respWith [("Cache-Control", ["max-age=0"]),
          ("Expires", ["Thu, 01 Jan 2026 01:00:00 GMT"])]) =
      (respWith [("Cache-Control", ["max-age=0"]),
          ("Expires", ["Thu, 01 Jan 2026 01:00:00 GMT"])], false) := by
  refine ⟨?_, ?_, ?_⟩ <;> decide

/-! ## C4 and C5 as the code has them -/

theorem takeWhile_digits (rest : List Char) :
    (rest.takeWhile Char.isDigit).all Char.isDigit = true := by
  induction rest with
  | nil => rfl
  | cons c cs ih =>
    by_cases hc : c.isDigit = true
    · simp [List.takeWhile, hc, ih]
    · simp [List.takeWhile, hc]

theorem maxAgeMatchAt_digits (cs d : List Char) (h : maxAgeMatchAt cs = some d) :
    d ≠ [] ∧ d.all Char.isDigit = true := by
  unfold maxAgeMatchAt at h
  simp only at h
  repeat' split at h
  all_goals first
    | (cases h; done)
    | (simp only [Option.some.injEq] at h
       subst h
       refine ⟨?_, takeWhile_digits _⟩
       intro hnil
       simp_all)

theorem maxAgeFindChars_digits (cs d : List Char) (h : maxAgeFindChars cs = some d) :
    d ≠ [] ∧ d.all Char.isDigit = true := by
  induction cs with
  | nil => cases h
  | cons c cs ih =>
    unfold maxAgeFindChars at h
    split at h
    · rename_i d1 hm
      cases h
      exact maxAgeMatchAt_digits _ _ hm
    · exact ih h

theorem atoi_digits (d : List Char) (hne : d ≠ []) (hd : d.all Char.isDigit = true) :
    atoi (String.mk d) =
      if (digitsValue d : Int) ≤ maxInt64 then some (digitsValue d : Int) else none := by
  unfold atoi
  simp only [String.toList]
  split
  · rename_i cs
    simp at hd
  · rename_i cs
    simp at hd
  · have h1 : d.isEmpty = false := by cases d <;> simp_all
    simp [h1, hd]

theorem durationSeconds_small (n : Int) (h0 : 0 ≤ n) (h1 : n ≤ 9223372036) :
    durationSeconds n = n * 1000000000 := by
  unfold durationSeconds wrapInt64 Second
  norm_num
  omega

theorem maxAgeFind_some (s digits : String) (h : maxAgeFind s = some digits) :
    digits.toList ≠ [] ∧ digits.toList.all Char.isDigit = true ∧
      digits = String.mk digits.toList := by
  unfold maxAgeFind at h
  cases hc : maxAgeFindChars s.toList with
  | none =>
    rw [hc] at h
    cases h
  | some d =>
    rw [hc] at h
    simp only [Option.map_some', Option.some.injEq] at h
    subst h
    have := maxAgeFindChars_digits _ _ hc
    exact ⟨this.1, this.2, rfl⟩

/-- C4, as the code has it: when the leftmost match of the directive pattern
in the Cache-Control header captures the digits of N, then for
0 < N ≤ 9223372036 `setTTL` returns true and sets `ttl` to `now` plus N
seconds, an instant strictly later than `now`; and for N ≥ 2^63 (where
`strconv.Atoi` reports a range error) `setTTL` returns false and leaves the
response unchanged. -/
theorem setTTL_max_age (now : Time) (parseTime : String → Option Time) (resp : Response)
    (digits : String)
    (hfind : maxAgeFind (resp.Header.Get "Cache-Control") = some digits) :
    (0 < digitsValue digits.toList → digitsValue digits.toList ≤ 9223372036 →
      setTTL now parseTime resp =
        ({ resp with ttl := some (now + (digitsValue digits.toList : Int) * 1000000000) }, true) ∧
      now < now + (digitsValue digits.toList : Int) * 1000000000) ∧
    (2 ^ 63 ≤ digitsValue digits.toList → setTTL now parseTime resp = (resp, false)) := by
  obtain ⟨hne, hall, hmk⟩ := maxAgeFind_some _ _ hfind
  have hat := atoi_digits digits.toList hne hall
  rw [← hmk] at hat
  constructor
  · intro hpos hle
    have hle' : (digitsValue digits.toList : Int) ≤ 9223372036 := by exact_mod_cast hle
    have hpos' : (0 : Int) < (digitsValue digits.toList : Int) := by exact_mod_cast hpos
    have hmax : (digitsValue digits.toList : Int) ≤ maxInt64 := by
      have h63 : maxInt64 = 9223372036854775807 := by unfold maxInt64; norm_num
      rw [h63]
      exact le_trans hle' (by norm_num)
    rw [if_pos hmax] at hat
    constructor
    · unfold setTTL
      simp only [hfind, hat, gt_iff_lt, hpos', if_true, Time.Add]
      rw [durationSeconds_small _ (le_of_lt hpos') hle']
    · exact (lt_add_iff_pos_right now).2 (mul_pos hpos' (by norm_num))
  · intro hbig
    have hmax : ¬ (digitsValue digits.toList : Int) ≤ maxInt64 := by
      have hbig' : (2 : Int) ^ 63 ≤ (digitsValue digits.toList : Int) := by exact_mod_cast hbig
      unfold maxInt64
      exact not_le.2 (lt_of_lt_of_le (by norm_num) hbig')
    rw [if_neg hmax] at hat
    unfold setTTL
    simp only [hfind, hat]

/-- C4 at a concrete response: `s-maxage=60` gives a TTL one minute after
`now`. -/
theorem setTTL_max_age_witness :
    setTTL sampleNow sampleParse (respWith [("Cache-Control", ["public, s-maxage=60"])]) =
      ({ respWith [("Cache-Control", ["public, s-maxage=60"])] with
          ttl := some (sampleNow + 60 * 1000000000) }, true) :=
  ((setTTL_max_age sampleNow sampleParse (respWith [("Cache-Control", ["public, s-maxage=60"])])
    "60" (by decide)).1 (by decide) (by decide)).1

/-- C5, as the code has it: when the Cache-Control header has no max-age or
s-maxage directive, `setTTL` returns true with `ttl` set to the parsed Expires
instant if that instant is later than `now`, and returns false leaving the
response unchanged if the Expires header does not parse or is not in the
future; when a directive is present with value 0, `setTTL` returns false and
leaves the response unchanged whatever the Expires header says. -/
theorem setTTL_expires (now : Time) (parseTime : String → Option Time) (resp : Response) :
    (maxAgeFind (resp.Header.Get "Cache-Control") = none →
      (∀ e, parseTime (resp.Header.Get "Expires") = some e → now < e →
        setTTL now parseTime resp = ({ resp with ttl := some e }, true)) ∧
      (∀ e, parseTime (resp.Header.Get "Expires") = some e → e ≤ now →
        setTTL now parseTime resp = (resp, false)) ∧
      (parseTime (resp.Header.Get "Expires") = none →
        setTTL now parseTime resp = (resp, false))) ∧
    (∀ digits, maxAgeFind (resp.Header.Get "Cache-Control") = some digits →
      digitsValue digits.toList = 0 → setTTL now parseTime resp = (resp, false)) := by
  constructor
  · intro hnone
    refine ⟨?_, ?_, ?_⟩
    · intro e he hlt
      unfold setTTL
      simp only [hnone, he]
      rw [if_pos (sub_pos.2 hlt)]
    · intro e he hle
      unfold setTTL
      simp only [hnone, he]
      rw [if_neg (not_lt.2 (sub_nonpos.2 hle))]
    · intro he
      unfold setTTL
      simp only [hnone, he]
  · intro digits hfind hzero
    obtain ⟨hne, hall, hmk⟩ := maxAgeFind_some _ _ hfind
    have hat := atoi_digits digits.toList hne hall
    rw [← hmk, hzero] at hat
    rw [if_pos (by unfold maxInt64; norm_num)] at hat
    unfold setTTL
    simp only [hfind, hat]
    simp

/-- C5 at a concrete response: no Cache-Control header and an Expires header
one hour after `now`. -/
theorem setTTL_expires_witness :
    setTTL sampleNow sampleParse (respWith [("Expires", ["Thu, 01 Jan 2026 01:00:00 GMT"])]) =
      ({ respWith [("Expires", ["Thu, 01 Jan 2026 01:00:00 GMT"])] with
          ttl := some (sampleNow + 3600 * Second) }, true) :=
  ((setTTL_expires sampleNow sampleParse
    (respWith [("Expires", ["Thu, 01 Jan 2026 01:00:00 GMT"])])).1 (by decide)).1
    (sampleNow + 3600 * Second) (by decide) (by decide)

/-! ## C6: conditional request headers -/

theorem find_filter_ne (h : Header) (k k1 : String) (hne : k1 ≠ k) :
    (h.filter (fun kv => kv.1 != k)).find? (fun kv => kv.1 == k1) =
      h.find? (fun kv => kv.1 == k1) := by
  induction h with
  | nil => rfl
  | cons kv rest ih =>
    by_cases hk : kv.1 = k
    · have hk1 : (kv.1 == k1) = false := by
        rw [beq_eq_false_iff_ne]
        intro h1
        exact hne (h1.symm.trans hk)
      have hk2 : (kv.1 != k) = false := by simp [hk]
      simp only [List.filter, hk2, List.find?, hk1, ih]
    · have hk2 : (kv.1 != k) = true := by simpa using hk
      simp only [List.filter, hk2, List.find?, ih]

theorem lookup_store (h : Header) (k k1 : String) (vs : List String) :
    (h.store k vs).lookup k1 = if k1 = k then some vs else h.lookup k1 := by
  unfold Header.store Header.lookup
  by_cases hk : k1 = k
  · subst hk
    simp [List.find?]
  · have hk1 : (k == k1) = false := by
      rw [beq_eq_false_iff_ne]
      exact fun h1 => hk h1.symm
    simp only [List.find?, hk1, if_neg hk, find_filter_ne h k k1 hk]

theorem lookup_Set (h : Header) (key v k1 : String) :
    (h.Set key v).lookup k1 =
      if k1 = canonicalMIMEHeaderKey key then some [v] else h.lookup k1 := by
  unfold Header.Set
  exact lookup_store h _ k1 _

theorem lookup_Add_ne (h : Header) (key v k1 : String)
    (hne : canonicalMIMEHeaderKey key ≠ k1) : (h.Add key v).lookup k1 = h.lookup k1 := by
  unfold Header.Add
  simp only
  rw [lookup_store, if_neg (fun h1 => hne h1.symm)]

theorem addCustomHeaders_lookup (custom h : Header) (k1 : String)
    (hc : ∀ kv ∈ custom, canonicalMIMEHeaderKey kv.1 ≠ k1) :
    (addCustomHeaders h custom).lookup k1 = h.lookup k1 := by
  unfold addCustomHeaders
  induction custom generalizing h with
  | nil => rfl
  | cons kv rest ih =>
    simp only [List.foldl_cons]
    rw [ih _ (fun kv1 hkv1 => hc kv1 (List.mem_cons_of_mem _ hkv1))]
    have hkv := hc kv (List.mem_cons_self _ _)
    generalize kv.2 = values
    induction values generalizing h with
    | nil => rfl
    | cons v vs ihv =>
      simp only [List.foldl_cons]
      rw [ihv, lookup_Add_ne h kv.1 v k1 hkv]

theorem setParams_header (env : Env) (rb : RequestBuilder) (req : Request)
    (cacheResp : Option Response) (cacheURL : String) :
    (setParams env rb req cacheResp cacheURL).Header =
      setConditional env (setParams env rb req none cacheURL).Header cacheResp := rfl

theorem setParams_plain_lookup (env : Env) (rb : RequestBuilder) (req : Request)
    (cacheURL k1 : String) (hk : k1 = "If-None-Match" ∨ k1 = "If-Modified-Since")
    (hreq : req.Header.lookup k1 = none)
    (hcustom : ∀ custom, rb.Headers = some custom →
      ∀ kv ∈ custom, canonicalMIMEHeaderKey kv.1 ≠ k1) :
    (setParams env rb req none cacheURL).Header.lookup k1 = none := by
  have c1 : canonicalMIMEHeaderKey "Connection" = "Connection" := by decide
  have c2 : canonicalMIMEHeaderKey "Cache-Control" = "Cache-Control" := by decide
  have c3 : canonicalMIMEHeaderKey "X-Original-URL" = "X-Original-Url" := by decide
  have c4 : canonicalMIMEHeaderKey "Authorization" = "Authorization" := by decide
  have c5 : canonicalMIMEHeaderKey "User-Agent" = "User-Agent" := by decide
  have c6 : canonicalMIMEHeaderKey "Accept" = "Accept" := by decide
  have c7 : canonicalMIMEHeaderKey "Content-Type" = "Content-Type" := by decide
  have h0 : (match rb.Headers with
      | some custom => addCustomHeaders req.Header custom
      | none => req.Header).lookup k1 = none := by
    cases hh : rb.Headers with
    | none => exact hreq
    | some custom =>
      simp only
      rw [addCustomHeaders_lookup custom _ k1 (hcustom custom hh)]
      exact hreq
  unfold setParams
  simp only [setConditional]
  generalize (match rb.Headers with
      | some custom => addCustomHeaders req.Header custom
      | none => req.Header) = hd0 at h0 ⊢
  rcases hk with hk | hk <;> subst hk <;>
    repeat' split
  all_goals simp [lookup_Set, c1, c2, c3, c4, c5, c6, c7, h0]

/-- C6: for the request that `setParams` decorates (built by
`http.NewRequest`, custom headers holding neither conditional header): with a
carried entry flagged for revalidation whose etag is non-empty, the request
has If-None-Match equal to the etag and no If-Modified-Since, whether or not
`lastModified` is present; with an empty etag and a `lastModified`, it has
If-Modified-Since equal to the formatted instant and no If-None-Match; with
no carried entry it has neither header. -/
theorem setParams_conditional (env : Env) (rb : RequestBuilder) (verb url : String)
    (body : List Nat) (cacheResp : Option Response) (cacheURL : String)
    (hcustom : ∀ custom, rb.Headers = some custom → ∀ kv ∈ custom,
      canonicalMIMEHeaderKey kv.1 ≠ "If-None-Match" ∧
      canonicalMIMEHeaderKey kv.1 ≠ "If-Modified-Since") :
    (∀ c, cacheResp = some c → c.revalidate = true → c.etag ≠ "" →
      (setParams env rb (newRequest verb url body) cacheResp cacheURL).Header.lookup
          "If-None-Match" = some [c.etag] ∧
      (setParams env rb (newRequest verb url body) cacheResp cacheURL).Header.Get
          "If-None-Match" = c.etag ∧
      (setParams env rb (newRequest verb url body) cacheResp cacheURL).Header.lookup
          "If-Modified-Since" = none) ∧
    (∀ c lm, cacheResp = some c → c.revalidate = true → c.etag = "" →
      c.lastModified = some lm →
      (setParams env rb (newRequest verb url body) cacheResp cacheURL).Header.lookup
          "If-Modified-Since" = some [env.formatTime lm] ∧
      (setParams env rb (newRequest verb url body) cacheResp cacheURL).Header.Get
          "If-Modified-Since" = env.formatTime lm ∧
      (setParams env rb (newRequest verb url body) cacheResp cacheURL).Header.lookup
          "If-None-Match" = none) ∧
    (cacheResp = none →
      (setParams env rb (newRequest verb url body) cacheResp cacheURL).Header.lookup
          "If-None-Match" = none ∧
      (setParams env rb (newRequest verb url body) cacheResp cacheURL).Header.lookup
          "If-Modified-Since" = none) := by
  have cn : canonicalMIMEHeaderKey "If-None-Match" = "If-None-Match" := by decide
  have cm : canonicalMIMEHeaderKey "If-Modified-Since" = "If-Modified-Since" := by decide
  have hn := setParams_plain_lookup env rb (newRequest verb url body) cacheURL "If-None-Match"
    (Or.inl rfl) rfl (fun custom hc kv hkv => (hcustom custom hc kv hkv).1)
  have hm := setParams_plain_lookup env rb (newRequest verb url body) cacheURL
    "If-Modified-Since" (Or.inr rfl) rfl (fun custom hc kv hkv => (hcustom custom hc kv hkv).2)
  refine ⟨?_, ?_, ?_⟩
  · intro c hc hrev hetag
    subst hc
    have hH : (setParams env rb (newRequest verb url body) (some c) cacheURL).Header =
        (setParams env rb (newRequest verb url body) none cacheURL).Header.Set
          "If-None-Match" c.etag := by
      rw [setParams_header]
      simp [setConditional, hrev, hetag]
    rw [hH]
    refine ⟨?_, ?_, ?_⟩
    · rw [lookup_Set, cn, if_pos rfl]
    · unfold Header.Get
      rw [lookup_Set, cn, if_pos rfl]
    · rw [lookup_Set, cn, if_neg (by decide)]
      exact hm
  · intro c lm hc hrev hetag hlm
    subst hc
    have hH : (setParams env rb (newRequest verb url body) (some c) cacheURL).Header =
        (setParams env rb (newRequest verb url body) none cacheURL).Header.Set
          "If-Modified-Since" (env.formatTime lm) := by
      rw [setParams_header]
      simp [setConditional, hrev, hetag, hlm]
    rw [hH]
    refine ⟨?_, ?_, ?_⟩
    · rw [lookup_Set, cm, if_pos rfl]
    · unfold Header.Get
      rw [lookup_Set, cm, if_pos rfl]
    · rw [lookup_Set, cm, if_neg (by decide)]
      exact hn
  · intro hc
    subst hc
    exact ⟨hn, hm⟩

/-- C6 at concrete requests: when the carried entry has both an etag and a
last-modified instant only If-None-Match is sent; when it has a last-modified
instant only, If-Modified-Since is sent. -/
theorem setParams_conditional_witness :
    (setParams envNotModified builderWithHeaders (newRequest "GET" "http://api.example.com/u" [])
        (some entryBoth) "http://api.example.com/u").Header.lookup "If-None-Match"
      = some ["1234"] ∧
    (setParams envNotModified builderWithHeaders (newRequest "GET" "http://api.example.com/u" [])
        (some entryBoth) "http://api.example.com/u").Header.lookup "If-Modified-Since"
      = none ∧
    (setParams envNotModified builderWithHeaders (newRequest "GET" "http://api.example.com/u" [])
        (some entryLastModified) "http://api.example.com/u").Header.lookup "If-Modified-Since"
      = some ["Mon, 12 Dec 2025 00:00:00 GMT"] :=
  have h := (setParams_conditional envNotModified builderWithHeaders "GET"
    "http://api.example.com/u" [] (some entryBoth) "http://api.example.com/u"
    (by intro custom hc; cases hc; decide)).1 entryBoth rfl rfl (by decide)
  have h2 := (setParams_conditional envNotModified builderWithHeaders "GET"
    "http://api.example.com/u" [] (some entryLastModified) "http://api.example.com/u"
    (by intro custom hc; cases hc; decide)).2.1 entryLastModified
    (sampleNow - 2678400 * Second) rfl rfl rfl rfl
  ⟨h.1, h.2.2, h2.1⟩

/-! ## C12: the redirect policy of the client -/

/-- C12: for every builder state in which `rb.Client` is set once
`clientMtxOnce` has run, and with `defaultCheckRedirectFunc` nil as it is at
program start, `getClient` returns a client; when `FollowRedirect` is false
its redirect policy returns the error "Avoided redirect attempt" for every
request and every chain, and when `FollowRedirect` is true its policy is
`defaultCheckRedirectFunc`, which is nil: the default policy of
`http.Client`. Both conditions on the state hold again after the call, so
this is so on every call. -/
theorem getClient_redirect_policy (d : Defaults) (rb : RequestBuilder) (w : World)
    (bs : BuilderState)
    (hok : bs.clientMtxOnce = true → bs.Client.isSome = true)
    (hdef : w.defaultCheckRedirectFunc = none) :
    ∃ w1 bs1 c, getClient d rb w bs = some (w1, bs1, c) ∧ bs1.Client = some c ∧
      (rb.FollowRedirect = false →
        ∃ f, c.CheckRedirect = some f ∧
          ∀ req via, f req via = some "Avoided redirect attempt") ∧
      (rb.FollowRedirect = true →
        c.CheckRedirect = w1.defaultCheckRedirectFunc ∧ c.CheckRedirect = none) ∧
      (bs1.clientMtxOnce = true ∧ bs1.Client.isSome = true) ∧
      w1.defaultCheckRedirectFunc = none := by
  have hw : ∀ cpPtr w0, (customPoolTransport d rb w0 cpPtr).1.defaultCheckRedirectFunc =
      w0.defaultCheckRedirectFunc := by
    intro cpPtr w0
    unfold customPoolTransport
    simp only
    split <;> rfl
  have hinit : (initClient d rb w).1.defaultCheckRedirectFunc = none := by
    unfold initClient
    simp only
    cases hcp : rb.CustomPool with
    | none =>
      simp only
      split
      · exact hdef
      · rfl
    | some cpPtr =>
      simp only [hw]
      split
      · exact hdef
      · rfl
  unfold getClient
  by_cases hb : bs.clientMtxOnce = true
  · have hsome := hok hb
    cases hc : bs.Client with
    | none => simp [hc] at hsome
    | some c0 =>
      simp only [hb, if_true, hc]
      by_cases hf : rb.FollowRedirect = true
      · refine ⟨_, _, _, rfl, rfl, ?_, ?_, ⟨rfl, rfl⟩, hdef⟩
        · intro h; rw [hf] at h; cases h
        · intro _; simp [hf, hdef]
      · have hf' : rb.FollowRedirect = false := by simpa using hf
        refine ⟨_, _, _, rfl, rfl, ?_, ?_, ⟨rfl, rfl⟩, hdef⟩
        · intro _; exact ⟨avoidRedirect, by simp [hf'], fun _ _ => rfl⟩
        · intro h; rw [hf'] at h; cases h
  · have hb' : bs.clientMtxOnce = false := by simpa using hb
    simp only [hb', Bool.false_eq_true, if_false]
    by_cases hf : rb.FollowRedirect = true
    · refine ⟨_, _, _, rfl, rfl, ?_, ?_, ⟨rfl, rfl⟩, hinit⟩
      · intro h; rw [hf] at h; cases h
      · intro _; simp [hf, hinit]
    · have hf' : rb.FollowRedirect = false := by simpa using hf
      refine ⟨_, _, _, rfl, rfl, ?_, ?_, ⟨rfl, rfl⟩, hinit⟩
      · intro _; exact ⟨avoidRedirect, by simp [hf'], fun _ _ => rfl⟩
      · intro h; rw [hf'] at h; cases h

/-- C12 at a concrete call: the first `getClient` of a fresh builder that
does not follow redirects. -/
theorem getClient_redirect_policy_witness :
    ∃ w1 bs1 c, getClient sampleDefaults builderOneSecond initialWorld newBuilderState =
        some (w1, bs1, c) ∧
      ∃ f, c.CheckRedirect = some f ∧ ∀ req via, f req via = some "Avoided redirect attempt" := by
  obtain ⟨w1, bs1, c, h, _, hno, _⟩ := getClient_redirect_policy sampleDefaults
    builderOneSecond initialWorld newBuilderState (fun h => by cases h) rfl
  exact ⟨w1, bs1, c, h, hno rfl⟩

/-! ## C13: the timeouts of the client's transport -/

/-- C13 as stated fails for a builder without a custom pool that is not the
first to build a client: after a builder with a request timeout of one
second, a builder with a request timeout of five seconds gets the shared
default transport, whose response-header timeout is one second. -/
theorem getClient_default_transport_shared :
    ((getClient sampleDefaults builderOneSecond initialWorld newBuilderState).bind
      (fun r1 => (getClient sampleDefaults builderFiveSeconds r1.1 newBuilderState).bind
        (fun r2 => (transportOf r2.1 r2.2.2).map (fun t => t.ResponseHeaderTimeout))))
      = some 1000000000 ∧
    getRequestTimeout sampleDefaults builderFiveSeconds = 5000000000 := by
  constructor <;> decide

theorem initDefaultTransport_pools (d : Defaults) (rb : RequestBuilder) (w : World) :
    (initDefaultTransport d rb w).pools = w.pools := by
  unfold initDefaultTransport World.newTransport
  simp only
  split <;> rfl

/-- C13, as the code has it, for the call of `getClient` that builds the
builder's client (`clientMtxOnce` has not run). The timeouts are 0 when
`DisableTimeout` is set, else the builder's positive override, else the
package default. With a custom pool whose transport is nil or an
`*http.Transport`, and with no custom pool when the shared default transport
has not been built yet, the transport of the returned client has
response-header timeout `getRequestTimeout()` and dial timeout
`getConnectionTimeout()`. With no custom pool and a default transport already
built, the client gets that shared transport and its fields are left as they
are. With a custom pool whose transport is of another type, the client gets
that transport as it is. -/
theorem getClient_timeouts (d : Defaults) (rb : RequestBuilder) (w : World)
    (bs : BuilderState) (hfirst : bs.clientMtxOnce = false) :
    ((rb.DisableTimeout = true →
        getRequestTimeout d rb = 0 ∧ getConnectionTimeout d rb = 0) ∧
      (rb.DisableTimeout = false →
        (0 < rb.Timeout → getRequestTimeout d rb = rb.Timeout) ∧
        (rb.Timeout ≤ 0 → getRequestTimeout d rb = d.DefaultTimeout) ∧
        (0 < rb.ConnectTimeout → getConnectionTimeout d rb = rb.ConnectTimeout) ∧
        (rb.ConnectTimeout ≤ 0 → getConnectionTimeout d rb = d.DefaultConnectTimeout))) ∧
    (∀ cpPtr, rb.CustomPool = some cpPtr →
      (∀ id, (w.pools cpPtr).Transport ≠ .other id) →
      ∃ w1 bs1 c t, getClient d rb w bs = some (w1, bs1, c) ∧ transportOf w1 c = some t ∧
        t.ResponseHeaderTimeout = getRequestTimeout d rb ∧
        t.DialTimeout = getConnectionTimeout d rb) ∧
    (rb.CustomPool = none → w.dTransportMtxOnce = false → w.defaultTransport = .nil →
      ∃ w1 bs1 c t, getClient d rb w bs = some (w1, bs1, c) ∧ transportOf w1 c = some t ∧
        t.ResponseHeaderTimeout = getRequestTimeout d rb ∧
        t.DialTimeout = getConnectionTimeout d rb) ∧
    (∀ p, rb.CustomPool = none → w.dTransportMtxOnce = true →
      w.defaultTransport = .transport p →
      ∃ w1 bs1 c, getClient d rb w bs = some (w1, bs1, c) ∧ c.Transport = .transport p ∧
        w1.transports p = w.transports p) ∧
    (∀ cpPtr id, rb.CustomPool = some cpPtr → (w.pools cpPtr).Transport = .other id →
      ∃ w1 bs1 c, getClient d rb w bs = some (w1, bs1, c) ∧ c.Transport = .other id) := by
  refine ⟨⟨?_, ?_⟩, ?_, ?_, ?_, ?_⟩
  · intro h
    simp [getRequestTimeout, getConnectionTimeout, h]
  · intro h
    refine ⟨?_, ?_, ?_, ?_⟩
    · intro hp
      simp [getRequestTimeout, h, hp]
    · intro hp
      simp [getRequestTimeout, h, not_lt.2 hp]
    · intro hp
      simp [getConnectionTimeout, h, hp]
    · intro hp
      simp [getConnectionTimeout, h, not_lt.2 hp]
  · intro cpPtr hcp hother
    have hpool : ∀ w0 : World, w0.pools = w.pools →
        ∃ p, (customPoolTransport d rb w0 cpPtr).2 = .transport p ∧
          ((customPoolTransport d rb w0 cpPtr).1.transports p).ResponseHeaderTimeout
            = getRequestTimeout d rb ∧
          ((customPoolTransport d rb w0 cpPtr).1.transports p).DialTimeout
            = getConnectionTimeout d rb := by
      intro w0 hw0
      unfold customPoolTransport
      simp only [hw0]
      cases htr : (w.pools cpPtr).Transport with
      | nil => exact ⟨w0.nextTransport, rfl, by simp [World.newTransport],
          by simp [World.newTransport]⟩
      | transport p => exact ⟨p, rfl, by simp, by simp⟩
      | other id => exact absurd htr (hother id)
    have hfin : ∀ w0 : World, w0.pools = w.pools →
        ∃ t, transportOf (customPoolTransport d rb w0 cpPtr).1
            (if (!rb.FollowRedirect) = true then
              { Transport := (customPoolTransport d rb w0 cpPtr).2,
                CheckRedirect := some avoidRedirect }
             else
              { Transport := (customPoolTransport d rb w0 cpPtr).2,
                CheckRedirect :=
                  (customPoolTransport d rb w0 cpPtr).1.defaultCheckRedirectFunc })
          = some t ∧ t.ResponseHeaderTimeout = getRequestTimeout d rb ∧
          t.DialTimeout = getConnectionTimeout d rb := by
      intro w0 hw0
      obtain ⟨p, hp, h1, h2⟩ := hpool w0 hw0
      refine ⟨(customPoolTransport d rb w0 cpPtr).1.transports p, ?_, h1, h2⟩
      split <;> simp [transportOf, hp]
    unfold getClient
    simp only [hfirst, Bool.false_eq_true, if_false]
    unfold initClient
    simp only [hcp]
    by_cases hd : w.dTransportMtxOnce = true
    · simp only [hd, if_true]
      obtain ⟨t, ht, h1, h2⟩ := hfin w rfl
      exact ⟨_, _, _, t, rfl, ht, h1, h2⟩
    · have hd' : w.dTransportMtxOnce = false := by simpa using hd
      simp only [hd', Bool.false_eq_true, if_false]
      obtain ⟨t, ht, h1, h2⟩ := hfin
        { initDefaultTransport d rb w with dTransportMtxOnce := true }
        (initDefaultTransport_pools d rb w)
      exact ⟨_, _, _, t, rfl, ht, h1, h2⟩
  · intro hcp hd hnil
    unfold getClient
    simp only [hfirst, Bool.false_eq_true, if_false]
    unfold initClient
    simp only [hcp, hd, Bool.false_eq_true, if_false]
    unfold initDefaultTransport World.newTransport
    simp only [hnil, if_true]
    refine ⟨_, _, _, { MaxIdleConnsPerHost := d.DefaultMaxIdleConnsPerHost
                       Proxy := .fromEnvironment
                       DialTimeout := getConnectionTimeout d rb
                       ResponseHeaderTimeout := getRequestTimeout d rb }, rfl, ?_, rfl, rfl⟩
    split <;> simp [transportOf]
  · intro p hcp hd hp
    unfold getClient
    simp only [hfirst, Bool.false_eq_true, if_false]
    unfold initClient
    simp only [hcp, hd, if_true, hp]
    refine ⟨_, _, _, rfl, ?_, rfl⟩
    split <;> rfl
  · intro cpPtr id hcp hother
    have htr : ∀ w0 : World, w0.pools = w.pools →
        (customPoolTransport d rb w0 cpPtr).2 = .other id := by
      intro w0 hw0
      unfold customPoolTransport
      simp only [hw0, hother]
    unfold getClient
    simp only [hfirst, Bool.false_eq_true, if_false]
    unfold initClient
    simp only [hcp]
    by_cases hd : w.dTransportMtxOnce = true
    · simp only [hd, if_true, htr w rfl]
      refine ⟨_, _, _, rfl, ?_⟩
      split <;> rfl
    · have hd' : w.dTransportMtxOnce = false := by simpa using hd
      simp only [hd', Bool.false_eq_true, if_false,
        htr { initDefaultTransport d rb w with dTransportMtxOnce := true }
          (initDefaultTransport_pools d rb w)]
      refine ⟨_, _, _, rfl, ?_⟩
      split <;> rfl

/-- C13 at a concrete call: a fresh builder with a zero custom pool, a connect
timeout of 1 ns and a request timeout of 35 ms. -/
theorem getClient_timeouts_witness :
    ∃ w1 bs1 c t, getClient sampleDefaults builderWithPool initialWorld newBuilderState =
        some (w1, bs1, c) ∧ transportOf w1 c = some t ∧
      t.ResponseHeaderTimeout = 35000000 ∧ t.DialTimeout = 1 :=
  (getClient_timeouts sampleDefaults builderWithPool initialWorld newBuilderState rfl).2.1
    0 rfl (fun id h => by cases h)

/-! ## C14: a mock that was added is the one served -/

theorem has_Add (h : Header) (key x k v : String) :
    (h.Add key x).has k v ↔ h.has k v ∨ (k = canonicalMIMEHeaderKey key ∧ v = x) := by
  unfold Header.has Header.Add
  simp only [lookup_store]
  by_cases hk : k = canonicalMIMEHeaderKey key
  · subst hk
    simp only [if_true, Option.some.injEq, exists_eq_left', List.mem_append,
      List.mem_singleton, true_and]
    cases hl : h.lookup (canonicalMIMEHeaderKey key) with
    | none => simp
    | some vs => simp
  · simp [hk]

theorem has_foldl_Add (key : String) (vs : List String) (h : Header) (k v : String) :
    (vs.foldl (fun acc x => acc.Add key x) h).has k v ↔
      h.has k v ∨ (k = canonicalMIMEHeaderKey key ∧ v ∈ vs) := by
  induction vs generalizing h with
  | nil => simp
  | cons x xs ih =>
    simp only [List.foldl_cons, ih, has_Add, List.mem_cons]
    tauto

theorem has_addCustomHeaders (hs h : Header) (k v : String) :
    (addCustomHeaders h hs).has k v ↔
      h.has k v ∨ ∃ kv ∈ hs, canonicalMIMEHeaderKey kv.1 = k ∧ v ∈ kv.2 := by
  unfold addCustomHeaders
  induction hs generalizing h with
  | nil => simp
  | cons kv rest ih =>
    simp only [List.foldl_cons, ih, has_foldl_Add, List.mem_cons, exists_eq_or_imp]
    constructor
    · rintro ((h1 | ⟨h2, h3⟩) | h4)
      · exact Or.inl h1
      · exact Or.inr (Or.inl ⟨h2.symm, h3⟩)
      · exact Or.inr (Or.inr h4)
    · rintro (h1 | ⟨h2, h3⟩ | h4)
      · exact Or.inl (Or.inl h1)
      · exact Or.inl (Or.inr ⟨h2.symm, h3⟩)
      · exact Or.inr h4

theorem not_has_nil (k v : String) : ¬ Header.has [] k v := by
  rintro ⟨vs, h, _⟩
  cases h

theorem mockMap_lookup_store (db : MockMap) (key : String) (m : Mock) :
    (db.store key m).lookup key = some m := by
  simp [MockMap.store, MockMap.lookup, List.find?]

theorem mockMap_find_filter_ne (db : MockMap) (k k1 : String) (hne : k1 ≠ k) :
    (db.filter (fun kv => kv.1 != k)).find? (fun kv => kv.1 == k1) =
      db.find? (fun kv => kv.1 == k1) := by
  induction db with
  | nil => rfl
  | cons kv rest ih =>
    by_cases hk : kv.1 = k
    · have hk1 : (kv.1 == k1) = false := by
        rw [beq_eq_false_iff_ne]
        intro h1
        exact hne (h1.symm.trans hk)
      have hk2 : (kv.1 != k) = false := by simp [hk]
      simp only [List.filter, hk2, List.find?, hk1, ih]
    · have hk2 : (kv.1 != k) = true := by simpa using hk
      simp only [List.filter, hk2, List.find?, ih]

theorem mockMap_lookup_store_ne (db : MockMap) (key k1 : String) (m : Mock) (hne : k1 ≠ key) :
    (db.store key m).lookup k1 = db.lookup k1 := by
  unfold MockMap.store MockMap.lookup
  have hk1 : (key == k1) = false := by
    rw [beq_eq_false_iff_ne]
    exact fun h1 => hne h1.symm
  simp only [List.find?, hk1, mockMap_find_filter_ne db key k1 hne]

theorem AddMockups_lookup_other (mocks : List Mock) (db : MockMap) (k : String)
    (hother : ∀ m1 ∈ mocks, mockKey m1 ≠ some k) :
    (AddMockups db mocks).1.lookup k = db.lookup k := by
  induction mocks generalizing db with
  | nil => rfl
  | cons m1 rest ih =>
    unfold AddMockups
    have h1 := hother m1 (List.mem_cons_self _ _)
    cases hn : getNormalizedUrl m1.URL with
    | none => rfl
    | some n1 =>
      simp only
      rw [ih _ (fun m2 hm2 => hother m2 (List.mem_cons_of_mem _ hm2))]
      apply mockMap_lookup_store_ne
      intro hk
      apply h1
      simp [mockKey, hn, hk]

theorem addAll_lookup_other (calls : List (List Mock)) (db : MockMap) (k : String)
    (hother : ∀ mocks ∈ calls, ∀ m1 ∈ mocks, mockKey m1 ≠ some k) :
    (addAll db calls).lookup k = db.lookup k := by
  unfold addAll
  induction calls generalizing db with
  | nil => rfl
  | cons mocks rest ih =>
    simp only [List.foldl_cons]
    rw [ih _ (fun ms hms => hother ms (List.mem_cons_of_mem _ hms))]
    exact AddMockups_lookup_other mocks db k (hother mocks (List.mem_cons_self _ _))

/-- C14 as stated fails for a mock whose status is not a three-digit
number: the URL of `mockWithoutCode` parses and `AddMockups` returns no
error, but `RespHTTPCode` is 0, `writer.WriteHeader(0)` panics and the
handler answers nothing. -/
theorem mockupHandler_panics_on_status_zero :
    (urlParse mockWithoutCode.URL).isSome = true ∧
    (AddMockups FlushMockups [mockWithoutCode]).2 = none ∧
    sampleMockRequest.Method = mockWithoutCode.HTTPMethod ∧
    sampleMockRequest.Header.Get "X-Original-URL" = mockWithoutCode.URL ∧
    mockupHandler (AddMockups FlushMockups [mockWithoutCode]).1 sampleMockRequest = none := by
  refine ⟨?_, ?_, ?_, ?_, ?_⟩ <;> decide

/-- C14, as the code has it: for every mock `m` whose URL parses, whatever
the map held before, `AddMockups(m)` returns no error. After it and after
any later `AddMockups` calls none of whose mocks has the method and
normalised URL of `m`, `mockupHandler` treats a request whose method is
`m.HTTPMethod` and whose X-Original-URL header is `m.URL` as follows: when
`m.RespHTTPCode` lies in 100..999 it passes to the writer the status
`m.RespHTTPCode`, the body `m.RespBody` and exactly the values of
`m.RespHeaders`, each under the canonical form of its key; otherwise
`WriteHeader` panics and nothing is answered. -/
theorem mockupHandler_serves_added_mock (db : MockMap) (m : Mock) (later : List (List Mock))
    (req : Request) (u : URL)
    (hparse : urlParse m.URL = some u)
    (hmethod : req.Method = m.HTTPMethod)
    (hurl : req.Header.Get "X-Original-URL" = m.URL)
    (hlater : ∀ mocks ∈ later, ∀ m1 ∈ mocks, mockKey m1 ≠ mockKey m) :
    (AddMockups db [m]).2 = none ∧
    (100 ≤ m.RespHTTPCode → m.RespHTTPCode ≤ 999 →
      ∃ w, mockupHandler (addAll (AddMockups db [m]).1 later) req = some w ∧
        w.StatusCode = m.RespHTTPCode ∧ w.Body = m.RespBody ∧
        (∀ k v, w.Header.has k v ↔
          ∃ kv ∈ m.RespHeaders, canonicalMIMEHeaderKey kv.1 = k ∧ v ∈ kv.2)) ∧
    ((m.RespHTTPCode < 100 ∨ 999 < m.RespHTTPCode) →
      mockupHandler (addAll (AddMockups db [m]).1 later) req = none) := by
  obtain ⟨n, hn⟩ : ∃ n, getNormalizedUrl m.URL = some n := by
    unfold getNormalizedUrl
    rw [hparse]
    simp only
    split <;> exact ⟨_, rfl⟩
  have hkey : mockKey m = some (m.HTTPMethod ++ " " ++ n) := by simp [mockKey, hn]
  have hadd : AddMockups db [m] = (db.store (m.HTTPMethod ++ " " ++ n) m, none) := by
    simp [AddMockups, hn]
  have hlook : (addAll (db.store (m.HTTPMethod ++ " " ++ n) m) later).lookup
      (m.HTTPMethod ++ " " ++ n) = some m := by
    rw [addAll_lookup_other later _ _ (fun ms hms m1 hm1 => hkey ▸ hlater ms hms m1 hm1)]
    exact mockMap_lookup_store db _ m
  have hh : mockupHandler (addAll (db.store (m.HTTPMethod ++ " " ++ n) m) later) req =
      if validWriteHeaderCode m.RespHTTPCode = true then
        some { Header := addCustomHeaders [] m.RespHeaders, StatusCode := m.RespHTTPCode,
               Body := m.RespBody }
      else none := by
    unfold mockupHandler
    simp only [hurl, hn, hmethod, hlook]
  rw [hadd]
  simp only [hh]
  refine ⟨trivial, ?_, ?_⟩
  · intro h1 h2
    have hv : validWriteHeaderCode m.RespHTTPCode = true := by
      simp [validWriteHeaderCode, h1, h2]
    rw [if_pos hv]
    refine ⟨_, rfl, rfl, rfl, ?_⟩
    intro k v
    rw [has_addCustomHeaders]
    simp [not_has_nil]
  · intro h
    have hv : ¬ validWriteHeaderCode m.RespHTTPCode = true := by
      unfold validWriteHeaderCode
      rcases h with h | h
      · simp [not_le.2 h]
      · simp [not_le.2 h]
    rw [if_neg hv]

/-- C14 at the mock of `TestMockup`: a URL with query parameters and a
fragment, still served with status 200 and body `foo` after a mock for
another URL was added. -/
theorem mockupHandler_serves_added_mock_witness :
    ∃ w, mockupHandler (addAll (AddMockups FlushMockups [sampleMock]).1 [[otherMock]])
        sampleMockRequest = some w ∧ w.StatusCode = 200 ∧ w.Body = "foo" :=
  have h := (mockupHandler_serves_added_mock FlushMockups sampleMock [[otherMock]]
    sampleMockRequest
    { Scheme := "http", Opaque := "", User := none, Host := "mytest.com", Path := "/foo",
      ForceQuery := false, RawQuery := "val1=1&val2=2", Fragment := "fragment" }
    (by decide) rfl (by decide) (by decide)).2.1 (by decide) (by decide)
  let ⟨w, hw, hs, hb, _⟩ := h
  ⟨w, hw, hs, hb⟩

/-! ## C16: the pointer that `doRequest` returns -/

/-- C16 at failing inputs: when the transport answers 304 and no cached entry
was carried (a POST, and a GET on a builder with caching disabled),
`doRequest` returns a nil pointer. -/
theorem doRequest_returns_nil_on_bare_304 :
    (doRequest envBare304 sampleBuilder "POST" "/user" .nil).1 = none ∧
    (doRequest envBare304 { sampleBuilder with DisableCache := true } "GET" "/user" .nil).1
      = none ∧
    (doRequest envBare304 sampleBuilder "GET" "/user" .nil).1 = none := by
  refine ⟨?_, ?_, ?_⟩ <;> decide

/-! ## C11: `getNormalizedUrl` and the fragment -/

/-- C11 as stated fails: two URLs that differ only in their fragment have
different normalised forms, and with a query present the fragment text
stands in front of the re-emitted parameters. -/
theorem getNormalizedUrl_fragment_in_result :
    getNormalizedUrl "http://mytest.com/foo?val1=1&val2=2#fragment" =
      some "http://mytest.com/foo?#fragmentval1=1&val2=2" ∧
    getNormalizedUrl "http://mytest.com/foo?val1=1&val2=2#other" =
      some "http://mytest.com/foo?#otherval1=1&val2=2" ∧
    getNormalizedUrl "http://mytest.com/foo?val1=1&val2=2#fragment" ≠
      getNormalizedUrl "http://mytest.com/foo?val1=1&val2=2#other" := by
  refine ⟨?_, ?_, ?_⟩ <;> decide

theorem cutChar_not_mem (sep : Char) (u : List Char) (h : sep ∉ u) :
    cutChar sep u = (u, [], false) := by
  induction u with
  | nil => rfl
  | cons c cs ih =>
    have hc : (c == sep) = false := by
      rw [beq_eq_false_iff_ne]
      intro h1
      exact h (h1 ▸ List.mem_cons_self _ _)
    have hcs : sep ∉ cs := fun h1 => h (List.mem_cons_of_mem _ h1)
    simp [cutChar, hc, ih hcs]

theorem cutChar_append_sep (sep : Char) (u f : List Char) (h : sep ∉ u) :
    cutChar sep (u ++ sep :: f) = (u, f, true) := by
  induction u with
  | nil => simp [cutChar]
  | cons c cs ih =>
    have hc : (c == sep) = false := by
      rw [beq_eq_false_iff_ne]
      intro h1
      exact h (h1 ▸ List.mem_cons_self _ _)
    have hcs : sep ∉ cs := fun h1 => h (List.mem_cons_of_mem _ h1)
    simp [cutChar, hc, ih hcs]

theorem urlParse_rawQuery (raw : String) (url : URL) (h : urlParse raw = some url) :
    url.RawQuery = String.mk (rawQueryOf (cutChar '#' raw.toList).1) := by
  unfold urlParse at h
  unfold rawQueryOf
  generalize cutChar '#' raw.toList = r at h ⊢
  obtain ⟨u, frag, b⟩ := r
  simp only at h ⊢
  split at h
  · cases h
  · split at h
    · rename_i hstar
      split at h
      · cases h
        simp [hstar]
      · cases h
    · rename_i hstar
      rw [if_neg (by simpa using hstar)]
      split at h
      · cases h
      · rename_i scheme rest0 hs
        have hq : (if (rest0.getLast? == some '?' && List.count '?' rest0 == 1) = true
              then (rest0.dropLast, ([] : List Char))
              else ((cutChar '?' rest0).1, (cutChar '?' rest0).2.1)).2 =
            (if (rest0.getLast? == some '?' && List.count '?' rest0 == 1) = true then []
              else (cutChar '?' rest0).2.1) := by
          split <;> rfl
        rw [← hq]
        generalize (if (rest0.getLast? == some '?' && List.count '?' rest0 == 1) = true
              then (rest0.dropLast, ([] : List Char))
              else ((cutChar '?' rest0).1, (cutChar '?' rest0).2.1)) = pq at h ⊢
        repeat' split at h
        all_goals first
          | (cases h; done)
          | (simp only [Option.some.injEq] at h
             rw [← h])

theorem getScheme_go_suffix (raw : List Char) (cs : List Char) :
    ∀ (i : Nat) (acc s rest : List Char), getScheme.go raw i acc cs = some (s, rest) →
      rest = raw ∨ ∃ a, cs = a ++ rest := by
  induction cs with
  | nil =>
    intro i acc s rest h
    simp only [getScheme.go, Option.some.injEq, Prod.mk.injEq] at h
    exact Or.inl h.2.symm
  | cons c cs ih =>
    intro i acc s rest h
    unfold getScheme.go at h
    split at h
    · rcases ih _ _ _ _ h with h1 | ⟨a, ha⟩
      · exact Or.inl h1
      · exact Or.inr ⟨c :: a, by rw [ha]; rfl⟩
    · split at h
      · split at h
        · simp only [Option.some.injEq, Prod.mk.injEq] at h
          exact Or.inl h.2.symm
        · rcases ih _ _ _ _ h with h1 | ⟨a, ha⟩
          · exact Or.inl h1
          · exact Or.inr ⟨c :: a, by rw [ha]; rfl⟩
      · split at h
        · split at h
          · cases h
          · simp only [Option.some.injEq, Prod.mk.injEq] at h
            exact Or.inr ⟨[c], by rw [← h.2]; rfl⟩
        · simp only [Option.some.injEq, Prod.mk.injEq] at h
          exact Or.inl h.2.symm

theorem getScheme_suffix (u s rest : List Char) (h : getScheme u = some (s, rest)) :
    ∃ a, u = a ++ rest := by
  unfold getScheme at h
  rcases getScheme_go_suffix u u 0 [] s rest h with h1 | h1
  · exact ⟨[], by rw [h1]; rfl⟩
  · exact h1

theorem cutChar_snd_suffix (sep : Char) (cs : List Char) :
    ∃ a, cs = a ++ (cutChar sep cs).2.1 := by
  induction cs with
  | nil => exact ⟨[], rfl⟩
  | cons c cs ih =>
    unfold cutChar
    split
    · exact ⟨[c], rfl⟩
    · obtain ⟨a, ha⟩ := ih
      exact ⟨c :: a, by simp only [List.cons_append]; rw [← ha]⟩

theorem rawQueryOf_suffix (u : List Char) : ∃ a, u = a ++ rawQueryOf u := by
  unfold rawQueryOf
  split
  · exact ⟨u, by simp⟩
  · split
    · exact ⟨u, by simp⟩
    · rename_i s rest0 hs
      obtain ⟨a, ha⟩ := getScheme_suffix u s rest0 hs
      split
      · exact ⟨u, by simp⟩
      · obtain ⟨b, hb⟩ := cutChar_snd_suffix '?' rest0
        exact ⟨a ++ b, by rw [List.append_assoc, ← hb, ← ha]⟩

theorem dropLit_append (q x r t : List Char) (h : dropLit q x = some r) :
    dropLit q (x ++ t) = some (r ++ t) := by
  induction q generalizing x with
  | nil =>
    simp only [dropLit, Option.some.injEq] at h ⊢
    rw [h]
  | cons p ps ih =>
    cases x with
    | nil => simp [dropLit] at h
    | cons c cs =>
      simp only [dropLit, List.cons_append] at h ⊢
      split at h
      · rename_i hpc
        rw [if_pos hpc]
        exact ih cs h
      · cases h

theorem dropLit_append_none (q x t : List Char) (h : dropLit q x = none)
    (hlen : q.length ≤ x.length) : dropLit q (x ++ t) = none := by
  induction q generalizing x with
  | nil => simp [dropLit] at h
  | cons p ps ih =>
    cases x with
    | nil => simp at hlen
    | cons c cs =>
      simp only [dropLit, List.cons_append] at h ⊢
      split
      · rename_i hpc
        rw [if_pos hpc] at h
        exact ih cs h (by simpa using hlen)
      · rfl

theorem dropLit_self (q t : List Char) : dropLit q (q ++ t) = some t := by
  induction q with
  | nil => rfl
  | cons p ps ih => simp [dropLit, ih]

theorem removeFirst_cons (q : List Char) (c : Char) (cs : List Char) :
    removeFirst q (c :: cs) =
      match dropLit q (c :: cs) with
      | some rest => rest
      | none => c :: removeFirst q cs := by
  rw [removeFirst]

theorem removeFirst_append (q a t : List Char) (hq : q ≠ []) :
    removeFirst q (a ++ q ++ t) = removeFirst q (a ++ q) ++ t := by
  induction a with
  | nil =>
    cases q with
    | nil => exact absurd rfl hq
    | cons p ps =>
      have h1 : dropLit (p :: ps) (p :: (ps ++ t)) = some t := dropLit_self (p :: ps) t
      have h2 : dropLit (p :: ps) (p :: ps) = some [] := by
        have h3 := dropLit_self (p :: ps) []
        rwa [List.append_nil] at h3
      show removeFirst (p :: ps) (p :: (ps ++ t)) = removeFirst (p :: ps) (p :: ps) ++ t
      rw [removeFirst_cons, removeFirst_cons, h1, h2]
      rfl
  | cons c cs ih =>
    show removeFirst q (c :: (cs ++ q ++ t)) = removeFirst q (c :: (cs ++ q)) ++ t
    rw [removeFirst_cons, removeFirst_cons]
    cases hd : dropLit q (c :: (cs ++ q)) with
    | some r =>
      have h1 : dropLit q (c :: (cs ++ q ++ t)) = some (r ++ t) :=
        dropLit_append q (c :: (cs ++ q)) r t hd
      rw [h1]
    | none =>
      have h1 : dropLit q (c :: (cs ++ q ++ t)) = none :=
        dropLit_append_none q (c :: (cs ++ q)) t hd
          (by simp only [List.length_cons, List.length_append]; omega)
      rw [h1]
      simp only [ih, List.cons_append]

theorem emitParams_append (q : Values) (ks : List String) (r : String) :
    emitParams q r ks = r ++ emitParams q "" ks := by
  induction ks generalizing r with
  | nil => simp [emitParams]
  | cons k rest ih =>
    cases rest with
    | nil => simp [emitParams, String.append_assoc]
    | cons k2 rest2 =>
      have e1 : ∀ r0 : String, emitParams q r0 (k :: k2 :: rest2) =
          emitParams q (r0 ++ k ++ "=" ++ q.Get k ++ "&") (k2 :: rest2) := by
        intro r0
        rw [emitParams]
        intro h0
        cases h0
      rw [e1 r, e1 "", ih, ih ("" ++ k ++ "=" ++ q.Get k ++ "&")]
      simp [String.append_assoc]

theorem getNormalizedUrl_tail (u t : List Char) (url : URL)
    (hcut : (cutChar '#' (u ++ t)).1 = u)
    (hp : urlParse (String.mk (u ++ t)) = some url) :
    getNormalizedUrl (String.mk (u ++ t)) =
      some (if (rawQueryOf u).length > 0 then
          String.mk (removeFirst (rawQueryOf u) u ++ t) ++
            emitParams ((splitOnChar '&' (rawQueryOf u)).foldl parseQueryStep []) ""
              (sortStrings (((splitOnChar '&' (rawQueryOf u)).foldl parseQueryStep []).map
                Prod.fst))
        else String.mk (u ++ t)) := by
  have hq := urlParse_rawQuery _ _ hp
  simp only [String.toList] at hq
  rw [hcut] at hq
  unfold getNormalizedUrl
  rw [hp]
  simp only [URL.Query, hq, String.toList, String.length]
  split
  · rename_i hlen
    have hne : rawQueryOf u ≠ [] := by
      intro h0
      rw [h0] at hlen
      simp at hlen
    obtain ⟨a, ha⟩ := rawQueryOf_suffix u
    have hrm : removeFirst (rawQueryOf u) (u ++ t) = removeFirst (rawQueryOf u) u ++ t := by
      have := removeFirst_append (rawQueryOf u) a t hne
      rw [← ha] at this
      exact this
    rw [emitParams_append, hrm]
  · rfl

/-- C11, as the code has it: `getNormalizedUrl` keeps the fragment. Two
parseable URLs that are the same text `u` followed by different fragments
have different normalised forms, and a URL whose query is empty is returned
as written, fragment included. -/
theorem getNormalizedUrl_keeps_fragment (u f1 f2 : List Char)
    (hu : '#' ∉ u)
    (hp1 : (urlParse (String.mk (u ++ '#' :: f1))).isSome = true)
    (hp2 : (urlParse (String.mk (u ++ '#' :: f2))).isSome = true)
    (hne : f1 ≠ f2) :
    getNormalizedUrl (String.mk (u ++ '#' :: f1)) ≠
      getNormalizedUrl (String.mk (u ++ '#' :: f2)) ∧
    (rawQueryOf u = [] →
      getNormalizedUrl (String.mk (u ++ '#' :: f1)) = some (String.mk (u ++ '#' :: f1))) := by
  obtain ⟨url1, h1⟩ := Option.isSome_iff_exists.1 hp1
  obtain ⟨url2, h2⟩ := Option.isSome_iff_exists.1 hp2
  have hc1 : (cutChar '#' (u ++ '#' :: f1)).1 = u := by rw [cutChar_append_sep _ _ _ hu]
  have hc2 : (cutChar '#' (u ++ '#' :: f2)).1 = u := by rw [cutChar_append_sep _ _ _ hu]
  have e1 := getNormalizedUrl_tail u ('#' :: f1) url1 hc1 h1
  have e2 := getNormalizedUrl_tail u ('#' :: f2) url2 hc2 h2
  constructor
  · rw [e1, e2]
    intro h
    simp only [Option.some.injEq] at h
    by_cases hlen : (rawQueryOf u).length > 0
    · rw [if_pos hlen, if_pos hlen] at h
      have hd := congrArg String.data h
      simp only [String.data_append] at hd
      simp only [List.append_cancel_right_eq, List.append_cancel_left_eq, List.cons.injEq,
        true_and] at hd
      exact hne hd
    · rw [if_neg hlen, if_neg hlen] at h
      have hd := congrArg String.data h
      simp only [List.append_cancel_left_eq, List.cons.injEq, true_and] at hd
      exact hne hd
  · intro hq
    rw [e1, hq]
    rfl

/-- C11 at concrete URLs without a query: the fragments `a` and `b` give
different normalised forms. -/
theorem getNormalizedUrl_keeps_fragment_witness :
    getNormalizedUrl "http://mytest.com/foo#a" ≠ getNormalizedUrl "http://mytest.com/foo#b" :=
  (getNormalizedUrl_keeps_fragment "http://mytest.com/foo".toList ['a'] ['b']
    (by decide) (by decide) (by decide) (by decide)).1

end Rest
